import Mathlib

/-!
Verification development for the webOS OMA DM update server
(`webos-update-exploration`).

Bytes (Python `bytes` elements) are modelled as natural numbers; every
byte produced by the encoders in this development is < 256.  The source's
bitmask operations on byte and integer values are rendered arithmetically
where symbolic reasoning is needed, using the standard identities
`x & 0x7F = x % 128`, `x >> 7 = x / 128`,
`(r << 7) | low = r * 128 + low` (for `low < 128`) and, for byte values
`b < 256`, `b & 0x80 == 0  iff  b < 128` and `b | 0x80 = b + 128` for
`b < 128`.  Genuinely bitwise computations (MD5, HMAC) use `Nat` bitwise
operators directly.
-/

namespace WUS

/-- Python truthiness of a string: non-empty. -/
def pyTruthy (s : String) : Bool := s ≠ ""

/-- Python truthiness of an optional string (`None` and `""` are falsy). -/
def pyTruthyOpt : Option String → Bool
  | none => false
  | some s => s ≠ ""

/-- Python `a or b` on strings: `a` if truthy, else `b`. -/
def pyOr (a b : String) : String := if a ≠ "" then a else b

/-- Python `opt or dflt` for an optional string. -/
def pyOrOpt (a : Option String) (b : String) : String :=
  match a with
  | none => b
  | some s => if s ≠ "" then s else b

/-- ASCII lowercasing, character by character (Python `str.lower()`;
all strings handled here are ASCII). -/
def lowerString (s : String) : String := String.mk (s.toList.map Char.toLower)

/-- ASCII whitespace test (Python `str.strip()` default set, restricted
to the characters appearing in HTTP headers). -/
def isSpaceChar (c : Char) : Bool := c = ' ' || c = '\t' || c = '\n' || c = '\r'

/-- Python `str.strip()`. -/
def strTrim (s : String) : String :=
  String.mk (((s.toList.dropWhile isSpaceChar).reverse.dropWhile isSpaceChar).reverse)

/-- Split on a single separator character (Python `str.split(sep)`):
always returns at least one (possibly empty) group. -/
def splitOnChar (sep : Char) : List Char → List (List Char)
  | [] => [[]]
  | c :: rest =>
    if c = sep then [] :: splitOnChar sep rest
    else
      match splitOnChar sep rest with
      | [] => [[c]]
      | g :: gs => (c :: g) :: gs

/-- Python `sep.join(parts)` for single-character separators. -/
def joinWith (sep : Char) : List (List Char) → List Char
  | [] => []
  | [g] => g
  | g :: gs => g ++ sep :: joinWith sep gs

/-- `isPrefixList pat l` is true when `pat` is a prefix of `l`. -/
def isPrefixList : List Char → List Char → Bool
  | [], _ => true
  | _ :: _, [] => false
  | a :: as, b :: bs => a = b && isPrefixList as bs

/-- `containsSub pat l` is true when `pat` occurs contiguously in `l`. -/
def containsSub (pat : List Char) : List Char → Bool
  | [] => isPrefixList pat []
  | b :: bs => isPrefixList pat (b :: bs) || containsSub pat bs

/-- Python `pat in s` for strings: `pat` occurs as a substring of `s`. -/
def strContains (s pat : String) : Bool := containsSub pat.toList s.toList

/-- Parse a run of decimal digits to a natural number (Python `int` on a
digit string). -/
def digitsToNat (cs : List Char) : Nat :=
  cs.foldl (fun acc c => acc * 10 + (c.toNat - '0'.toNat)) 0

/-- Python `int(s)` restricted to optional-sign decimal strings; `none`
models the `ValueError` raised on any other input. -/
def pyInt (s : String) : Option Int :=
  let cs := (strTrim s).toList
  match cs with
  | [] => none
  | '-' :: rest =>
      if rest ≠ [] && rest.all Char.isDigit then some (-(digitsToNat rest : Int)) else none
  | '+' :: rest =>
      if rest ≠ [] && rest.all Char.isDigit then some (digitsToNat rest : Int) else none
  | _ =>
      if cs.all Char.isDigit then some (digitsToNat cs : Int) else none

/-- Python `str(x)` rendering of `None`-able strings used in f-strings:
`None` prints as `"None"`. -/
def pyStrOfOpt : Option String → String
  | none => "None"
  | some s => s

/-! ## MB-uint32 (wbxml/codec.py `read_mb_uint32` / `write_mb_uint32`) -/

/-- The 7-bit groups of `v`, most significant first (the loop
`while value > 0: bytes_list.insert(0, value & 0x7F); value >>= 7`).
Structural recursion on a fuel bound (any fuel above `v` is enough,
since `v / 128 < v` for positive `v`), so that the kernel can evaluate
it. -/
def mb_groups_fuel : Nat → Nat → List Nat
  | 0, _ => []
  | fuel + 1, v => if v = 0 then [] else mb_groups_fuel fuel (v / 128) ++ [v % 128]

def mb_groups (v : Nat) : List Nat := mb_groups_fuel (v + 1) v

lemma mb_groups_fuel_congr :
    ∀ v f1 f2, v < f1 → v < f2 → mb_groups_fuel f1 v = mb_groups_fuel f2 v := by
  intro v
  induction v using Nat.strong_induction_on with
  | _ v ih =>
    intro f1 f2 h1 h2
    cases f1 with
    | zero => omega
    | succ a =>
      cases f2 with
      | zero => omega
      | succ b =>
        rw [mb_groups_fuel, mb_groups_fuel]
        by_cases hv : v = 0
        · simp [hv]
        · have hlt : v / 128 < v := Nat.div_lt_self (Nat.pos_of_ne_zero hv) (by norm_num)
          simp only [hv, if_false]
          rw [ih (v / 128) hlt a b (by omega) (by omega)]

/-- Set the continuation bit (`b |= 0x80`, i.e. `b + 128` for the 7-bit
groups) on every byte but the last. -/
def mark_continuation : List Nat → List Nat
  | [] => []
  | [b] => [b]
  | b :: rest => (b + 128) :: mark_continuation rest

/-- `WBXMLEncoder.write_mb_uint32`: 7 bits per byte, continuation bit on
all but the last byte; the value `0` is the single byte `0x00`. -/
def write_mb_uint32 (v : Nat) : List Nat :=
  if v = 0 then [0] else mark_continuation (mb_groups v)

/-- Accumulating loop of `WBXMLDecoder.read_mb_uint32`:
`result = (result << 7) | (b & 0x7F)`, stopping on a byte whose
continuation bit (`b & 0x80`) is clear; `none` models the exception
raised on truncated input. -/
def read_mb_uint32_aux (acc : Nat) : List Nat → Option (Nat × List Nat)
  | [] => none
  | b :: rest =>
      let acc' := acc * 128 + b % 128
      if b < 128 then some (acc', rest) else read_mb_uint32_aux acc' rest

/-- `WBXMLDecoder.read_mb_uint32` reading from the front of a byte list,
returning the value and the remaining bytes. -/
def read_mb_uint32 (data : List Nat) : Option (Nat × List Nat) :=
  read_mb_uint32_aux 0 data

lemma mb_groups_zero : mb_groups 0 = [] := rfl

lemma mb_groups_eq (v : Nat) (h : v ≠ 0) :
    mb_groups v = mb_groups (v / 128) ++ [v % 128] := by
  unfold mb_groups
  rw [mb_groups_fuel]
  simp only [h, if_false]
  have hlt : v / 128 < v := Nat.div_lt_self (Nat.pos_of_ne_zero h) (by norm_num)
  rw [mb_groups_fuel_congr (v / 128) v (v / 128 + 1) hlt (by omega)]

lemma mb_groups_lt (v : Nat) : ∀ b ∈ mb_groups v, b < 128 := by
  induction v using Nat.strong_induction_on with
  | _ v ih =>
    intro b hb
    by_cases h : v = 0
    · rw [h, mb_groups_zero] at hb; simp at hb
    · rw [mb_groups_eq v h] at hb
      rcases List.mem_append.mp hb with h1 | h2
      · exact ih (v / 128) (Nat.div_lt_self (Nat.pos_of_ne_zero h) (by norm_num)) b h1
      · simp at h2; omega

lemma mark_continuation_append (xs : List Nat) (y : Nat) :
    mark_continuation (xs ++ [y]) = xs.map (· + 128) ++ [y] := by
  induction xs with
  | nil => rfl
  | cons x xs ih =>
    cases xs with
    | nil => rfl
    | cons x' xs' =>
      have h1 : mark_continuation ((x :: x' :: xs') ++ [y]) =
          (x + 128) :: mark_continuation ((x' :: xs') ++ [y]) := rfl
      rw [h1, ih]
      rfl

lemma read_marked (xs : List Nat) :
    ∀ acc y rest, (∀ b ∈ xs, b < 128) → y < 128 →
      read_mb_uint32_aux acc (xs.map (· + 128) ++ y :: rest) =
        some (xs.foldl (fun a g => a * 128 + g) acc * 128 + y, rest) := by
  induction xs with
  | nil =>
    intro acc y rest _ hy
    simp [read_mb_uint32_aux, hy, Nat.mod_eq_of_lt hy]
  | cons x xs ih =>
    intro acc y rest hxs hy
    have hx : x < 128 := hxs x (by simp)
    have hmod : (x + 128) % 128 = x := by omega
    have hge : ¬ (x + 128 < 128) := by omega
    simp only [List.map, List.cons_append, read_mb_uint32_aux, hmod, hge, if_false,
      List.foldl]
    exact ih (acc * 128 + x) y rest (fun b hb => hxs b (by simp [hb])) hy

lemma mb_groups_foldl (v : Nat) :
    ∀ acc, (mb_groups v).foldl (fun a g => a * 128 + g) acc =
      acc * 128 ^ (mb_groups v).length + v := by
  induction v using Nat.strong_induction_on with
  | _ v ih =>
    intro acc
    by_cases h : v = 0
    · rw [h, mb_groups_zero]; simp
    · rw [mb_groups_eq v h]
      rw [List.foldl_append]
      rw [ih (v / 128) (Nat.div_lt_self (Nat.pos_of_ne_zero h) (by norm_num)) acc]
      simp only [List.foldl, List.length_append, List.length_singleton]
      rw [pow_succ]
      have := Nat.div_add_mod v 128
      ring_nf
      omega

lemma mb_roundtrip (v : Nat) (rest : List Nat) :
    read_mb_uint32 (write_mb_uint32 v ++ rest) = some (v, rest) := by
  by_cases h : v = 0
  · subst h
    simp [write_mb_uint32, read_mb_uint32, read_mb_uint32_aux]
  · unfold write_mb_uint32
    simp only [h, if_false]
    rw [mb_groups_eq v h, mark_continuation_append]
    unfold read_mb_uint32
    rw [List.append_assoc]
    simp only [List.singleton_append, List.nil_append]
    rw [read_marked (mb_groups (v / 128)) 0 (v % 128) rest
        (mb_groups_lt (v / 128)) (Nat.mod_lt v (by norm_num))]
    rw [mb_groups_foldl (v / 128) 0]
    simp only [Nat.zero_mul, Nat.zero_add, Option.some.injEq, Prod.mk.injEq]
    refine ⟨by omega, trivial⟩

/-- C9: for every `v` in `[0, 2^28)`, decoding the bytes produced by
`write_mb_uint32 v` with `read_mb_uint32` yields `v` again, consuming
exactly the emitted bytes; value `0` encodes as the single byte `0x00`,
and the continuation bit (`+128`) is set on every byte but the last. -/
theorem c9_mb_uint32_roundtrip (v : Nat) (hv : v < 2 ^ 28) (rest : List Nat) :
    read_mb_uint32 (write_mb_uint32 v ++ rest) = some (v, rest) ∧
    write_mb_uint32 0 = [0] ∧
    (write_mb_uint32 v).dropLast.all (fun b => 128 ≤ b) = true ∧
    (∀ b, (write_mb_uint32 v).getLast? = some b → b < 128) := by
  refine ⟨mb_roundtrip v rest, rfl, ?_, ?_⟩
  · by_cases h : v = 0
    · subst h; rfl
    · unfold write_mb_uint32
      simp only [h, if_false]
      rw [mb_groups_eq v h, mark_continuation_append]
      rw [List.dropLast_append_of_ne_nil _ (by simp)]
      simp only [List.dropLast_single, List.append_nil, List.all_eq_true]
      intro b hb
      rcases List.mem_map.mp hb with ⟨a, _, rfl⟩
      simp only [decide_eq_true_eq]
      omega
  · intro b hb
    by_cases h : v = 0
    · subst h
      have h0 : write_mb_uint32 0 = [0] := rfl
      rw [h0] at hb
      simp [List.getLast?_singleton] at hb
      omega
    · unfold write_mb_uint32 at hb
      simp only [h, if_false] at hb
      rw [mb_groups_eq v h, mark_continuation_append] at hb
      rw [List.getLast?_append_of_ne_nil _ (by simp)] at hb
      simp at hb
      have : v % 128 < 128 := Nat.mod_lt v (by norm_num)
      omega

/-- Witness for C9 at `v = 1000000`, `rest = [5]`. -/
theorem c9_mb_uint32_roundtrip_witness :
    read_mb_uint32 (write_mb_uint32 1000000 ++ [5]) = some (1000000, [5]) ∧
    write_mb_uint32 0 = [0] ∧
    (write_mb_uint32 1000000).dropLast.all (fun b => 128 ≤ b) = true ∧
    (∀ b, (write_mb_uint32 1000000).getLast? = some b → b < 128) :=
  c9_mb_uint32_roundtrip 1000000 (by norm_num) [5]

/-! ## Update catalog (dm/update.py) -/

/-- `UpdatePackage` dataclass from dm/update.py. -/
structure UpdatePackage where
  name : String := ""
  version : String := ""
  filename : String := ""
  size : Nat := 0
  md5 : String := ""
  description : String := ""
  min_version : String := ""
  target_build : String := ""
  install_notify_url : String := ""
deriving DecidableEq

/-- Character-by-character scan collecting maximal runs of consecutive
decimal digits in order: the matches of `re.findall(r'\d+', ...)`
(builds here are ASCII, where Python's `\d` is exactly `0`-`9`).
`cur` holds the current run, most recent character first. -/
def digitRunsAux : List Char → List Char → List String
  | [], cur => if cur = [] then [] else [String.mk cur.reverse]
  | c :: rest, cur =>
    if c.isDigit then digitRunsAux rest (c :: cur)
    else if cur = [] then digitRunsAux rest []
    else String.mk cur.reverse :: digitRunsAux rest []

def digitRuns (cs : List Char) : List String := digitRunsAux cs []

/-- `UpdateManager._parse_build_version`: regex `\d+` over the build
string, first four numbers, right-padded with `'0'` to four components.
An input with no digits returns `(0, 0, 0, 0)`. -/
def parse_build_version (build : String) : Nat × Nat × Nat × Nat :=
  let numbers := digitRuns build.toList
  if numbers = [] then (0, 0, 0, 0)
  else
    let padded := numbers ++ List.replicate (4 - numbers.length) "0"
    (digitsToNat (padded.getD 0 "0").toList,
     digitsToNat (padded.getD 1 "0").toList,
     digitsToNat (padded.getD 2 "0").toList,
     digitsToNat (padded.getD 3 "0").toList)

/-- Python `<` on equal-length integer tuples: lexicographic. -/
def tupLt (a b : Nat × Nat × Nat × Nat) : Bool :=
  decide (a.1 < b.1) ||
    (decide (a.1 = b.1) &&
      (decide (a.2.1 < b.2.1) ||
        (decide (a.2.1 = b.2.1) &&
          (decide (a.2.2.1 < b.2.2.1) ||
            (decide (a.2.2.1 = b.2.2.1) && decide (a.2.2.2 < b.2.2.2))))))

/-- The per-package filter of `check_update_available`: `continue` when
`min_version` is set and `device_version < min_ver`, or when
`target_build` is set and `device_version >= target_ver`. -/
def package_applicable (device_version : Nat × Nat × Nat × Nat) (pkg : UpdatePackage) : Bool :=
  (if pkg.min_version ≠ "" then ! tupLt device_version (parse_build_version pkg.min_version)
   else true) &&
  (if pkg.target_build ≠ "" then tupLt device_version (parse_build_version pkg.target_build)
   else true)

def sort_key (p : UpdatePackage) : Nat × Nat × Nat × Nat :=
  parse_build_version (pyOr p.target_build p.version)

/-- `candidates.sort(key=..., reverse=True)` followed by `candidates[0]`:
Python's sort is stable, so this selects the first element attaining the
maximal key, which this left fold computes. -/
def pick_newest : UpdatePackage → List UpdatePackage → UpdatePackage
  | best, [] => best
  | best, p :: rest => pick_newest (if tupLt (sort_key best) (sort_key p) then p else best) rest

/-- `UpdateManager.check_update_available` (the model/carrier arguments
of the source are unused by it and omitted).  The catalog dict is
modelled as the list of its values in insertion order. -/
def check_update_available (device_build : String) (packages : List UpdatePackage) :
    Option UpdatePackage :=
  if packages = [] then none
  else
    match packages.filter (package_applicable (parse_build_version device_build)) with
    | [] => none
    | c :: cs => some (pick_newest c cs)

lemma tupLt_iff (a b : Nat × Nat × Nat × Nat) :
    tupLt a b = true ↔
      (a.1 < b.1 ∨ (a.1 = b.1 ∧ (a.2.1 < b.2.1 ∨ (a.2.1 = b.2.1 ∧
        (a.2.2.1 < b.2.2.1 ∨ (a.2.2.1 = b.2.2.1 ∧ a.2.2.2 < b.2.2.2)))))) := by
  simp [tupLt]

lemma tupLt_irrefl (a : Nat × Nat × Nat × Nat) : tupLt a a = false := by
  simp [tupLt]

lemma tupLt_trans {a b c : Nat × Nat × Nat × Nat}
    (h1 : tupLt a b = true) (h2 : tupLt b c = true) : tupLt a c = true := by
  rw [tupLt_iff] at h1 h2 ⊢
  omega

lemma tupLt_conn {a b : Nat × Nat × Nat × Nat}
    (h1 : tupLt a b = false) (h2 : tupLt b a = false) : a = b := by
  have h1' : ¬ tupLt a b = true := by simp [h1]
  have h2' : ¬ tupLt b a = true := by simp [h2]
  rw [tupLt_iff] at h1' h2'
  obtain ⟨a1, a2, a3, a4⟩ := a
  obtain ⟨b1, b2, b3, b4⟩ := b
  simp only [Prod.mk.injEq]
  simp only at h1' h2'
  omega

lemma tupLt_not_lt_of_not {a b : Nat × Nat × Nat × Nat}
    (h : tupLt a b = false) : tupLt b a = true ∨ b = a := by
  by_cases h2 : tupLt b a = true
  · exact Or.inl h2
  · exact Or.inr (tupLt_conn (by simpa using h2) h)

lemma pick_newest_mem (c : UpdatePackage) (cs : List UpdatePackage) :
    pick_newest c cs ∈ c :: cs := by
  induction cs generalizing c with
  | nil => simp [pick_newest]
  | cons p rest ih =>
    rw [pick_newest]
    by_cases hcp : tupLt (sort_key c) (sort_key p) = true
    · rw [if_pos hcp]
      rcases List.mem_cons.mp (ih p) with h | h
      · rw [h]; simp
      · simp [h]
    · rw [if_neg hcp]
      rcases List.mem_cons.mp (ih c) with h | h
      · rw [h]; simp
      · simp [h]

lemma pick_newest_max (c : UpdatePackage) (cs : List UpdatePackage) :
    ∀ q ∈ c :: cs, tupLt (sort_key (pick_newest c cs)) (sort_key q) = false := by
  induction cs generalizing c with
  | nil =>
    intro q hq
    simp only [List.mem_singleton] at hq
    subst hq
    simp [pick_newest, tupLt_irrefl]
  | cons p rest ih =>
    intro q hq
    rw [pick_newest]
    by_cases hcp : tupLt (sort_key c) (sort_key p) = true
    · rw [if_pos hcp]
      rcases List.mem_cons.mp hq with hqc | hq'
      · -- q is the old accumulator c
        rw [hqc]
        have hp : tupLt (sort_key (pick_newest p rest)) (sort_key p) = false :=
          ih p p (by simp)
        by_contra hcon
        rw [Bool.not_eq_false] at hcon
        exact absurd (tupLt_trans hcon hcp) (by simp [hp])
      · exact ih p q hq'
    · rw [if_neg hcp]
      rcases List.mem_cons.mp hq with hqc | hq'
      · rw [hqc]
        exact ih c c (by simp)
      · rcases List.mem_cons.mp hq' with hqp | hq''
        · -- q is the newly considered element, not above the accumulator
          rw [hqp]
          have hb : tupLt (sort_key (pick_newest c rest)) (sort_key c) = false :=
            ih c c (by simp)
          have hcp' : tupLt (sort_key c) (sort_key p) = false := by
            simpa using hcp
          by_contra hcon
          rw [Bool.not_eq_false] at hcon
          rcases tupLt_not_lt_of_not hcp' with hlt2 | heq
          · exact absurd (tupLt_trans hcon hlt2) (by simp [hb])
          · rw [heq] at hcon
            exact absurd hcon (by simp [hb])
        · exact ih c q (by simp [hq''])

lemma pick_newest_first (c : UpdatePackage) (cs : List UpdatePackage) :
    ∃ l1 l2, c :: cs = l1 ++ pick_newest c cs :: l2 ∧
      ∀ q ∈ l1, tupLt (sort_key q) (sort_key (pick_newest c cs)) = true := by
  induction cs generalizing c with
  | nil => exact ⟨[], [], by simp [pick_newest], by simp⟩
  | cons p rest ih =>
    rw [pick_newest]
    by_cases hcp : tupLt (sort_key c) (sort_key p) = true
    · rw [if_pos hcp]
      obtain ⟨l1, l2, hdec, hlt⟩ := ih p
      cases l1 with
      | nil =>
        rw [List.nil_append] at hdec
        have h1 : p = pick_newest p rest := by injection hdec
        refine ⟨[c], l2, ?_, ?_⟩
        · rw [List.singleton_append]
          exact congrArg (List.cons c) hdec
        · intro q hq
          simp only [List.mem_singleton] at hq
          rw [hq, ← h1]
          exact hcp
      | cons x t =>
        rw [List.cons_append] at hdec
        have h1 : p = x := by injection hdec
        have hpmem : p ∈ x :: t := by rw [← h1]; simp
        have hpr : tupLt (sort_key p) (sort_key (pick_newest p rest)) = true :=
          hlt p hpmem
        refine ⟨c :: x :: t, l2, ?_, ?_⟩
        · simp only [List.cons_append]
          exact congrArg (List.cons c) hdec
        · intro q hq
          rcases List.mem_cons.mp hq with hqc | hq'
          · rw [hqc]
            exact tupLt_trans hcp hpr
          · exact hlt q hq'
    · rw [if_neg hcp]
      obtain ⟨l1, l2, hdec, hlt⟩ := ih c
      cases l1 with
      | nil =>
        rw [List.nil_append] at hdec
        have h1 : c = pick_newest c rest := by injection hdec
        refine ⟨[], p :: rest, ?_, by simp⟩
        rw [List.nil_append, ← h1]
      | cons x t =>
        rw [List.cons_append] at hdec
        have h1 : c = x := by injection hdec
        have h2 : rest = t ++ pick_newest c rest :: l2 := by injection hdec
        have hcmem : c ∈ x :: t := by rw [← h1]; simp
        have hcr : tupLt (sort_key c) (sort_key (pick_newest c rest)) = true :=
          hlt c hcmem
        refine ⟨c :: p :: t, l2, ?_, ?_⟩
        · simp only [List.cons_append]
          exact congrArg (fun l => c :: p :: l) h2
        · intro q hq
          rcases List.mem_cons.mp hq with hqc | hq'
          · rw [hqc]
            exact hcr
          · rcases List.mem_cons.mp hq' with hqp | hq''
            · rw [hqp]
              have hcp' : tupLt (sort_key c) (sort_key p) = false := by
                simpa using hcp
              rcases tupLt_not_lt_of_not hcp' with hlt2 | heq
              · exact tupLt_trans hlt2 hcr
              · rw [heq]
                exact hcr
            · exact hlt q (List.mem_cons_of_mem x hq'')

lemma digitRunsAux_nil_of_nodigit :
    ∀ cs : List Char, (∀ c ∈ cs, c.isDigit = false) → digitRunsAux cs [] = [] := by
  intro cs
  induction cs with
  | nil => intro _; rfl
  | cons c rest ih =>
    intro hall
    have hc : c.isDigit = false := hall c (by simp)
    rw [digitRunsAux, hc]
    simp only [Bool.false_eq_true, if_false, if_pos rfl]
    exact ih (fun c' hc' => hall c' (by simp [hc']))

/-- C4: `check_update_available` returns `none` exactly when no package
is applicable; otherwise it returns an applicable package of the catalog
maximizing `version(target_build or version)`, the first such in
iteration order; a package with neither `min_version` nor `target_build`
set is applicable to every device. -/
theorem c4_check_update_available (build : String) (packages : List UpdatePackage) :
    (check_update_available build packages = none ↔
      packages.filter (package_applicable (parse_build_version build)) = []) ∧
    (∀ P, check_update_available build packages = some P →
      P ∈ packages.filter (package_applicable (parse_build_version build)) ∧
      (∀ Q ∈ packages.filter (package_applicable (parse_build_version build)),
        tupLt (sort_key P) (sort_key Q) = false) ∧
      (∃ l1 l2, packages.filter (package_applicable (parse_build_version build)) =
          l1 ++ P :: l2 ∧
        ∀ Q ∈ l1, tupLt (sort_key Q) (sort_key P) = true)) ∧
    (∀ P : UpdatePackage, P.min_version = "" → P.target_build = "" →
      package_applicable (parse_build_version build) P = true) := by
  refine ⟨?_, ?_, ?_⟩
  · unfold check_update_available
    by_cases hp : packages = []
    · subst hp; simp
    · simp only [hp, if_false]
      cases hf : packages.filter (package_applicable (parse_build_version build)) with
      | nil => simp [hf]
      | cons c cs => simp [hf]
  · intro P hP
    unfold check_update_available at hP
    by_cases hp : packages = []
    · simp [hp] at hP
    · simp only [hp, if_false] at hP
      cases hf : packages.filter (package_applicable (parse_build_version build)) with
      | nil =>
        rw [hf] at hP
        simp at hP
      | cons c cs =>
        rw [hf] at hP
        simp only [Option.some.injEq] at hP
        subst hP
        exact ⟨pick_newest_mem c cs, pick_newest_max c cs, pick_newest_first c cs⟩
  · intro P h1 h2
    simp [package_applicable, h1, h2]

def c4_pkg_a : UpdatePackage := { name := "a", version := "1.0.0", target_build := "3.0.5" }

def c4_pkg_b : UpdatePackage := { name := "b", version := "1.0.0", target_build := "3.0.6" }

/-- Witness for C4 on the spec's applicability scenario: catalog
`[target 3.0.5, target 3.0.6]`, device `3.0.4` selects the package with
`target_build = "3.0.6"`. -/
theorem c4_check_update_available_witness :
    c4_pkg_b ∈ [c4_pkg_a, c4_pkg_b].filter
      (package_applicable (parse_build_version "3.0.4")) ∧
    (∀ Q ∈ [c4_pkg_a, c4_pkg_b].filter (package_applicable (parse_build_version "3.0.4")),
      tupLt (sort_key c4_pkg_b) (sort_key Q) = false) ∧
    (∃ l1 l2, [c4_pkg_a, c4_pkg_b].filter (package_applicable (parse_build_version "3.0.4")) =
        l1 ++ c4_pkg_b :: l2 ∧
      ∀ Q ∈ l1, tupLt (sort_key Q) (sort_key c4_pkg_b) = true) :=
  (c4_check_update_available "3.0.4" [c4_pkg_a, c4_pkg_b]).2.1 c4_pkg_b (by decide)

/-- C7: `_parse_build_version` on the spec's examples; a string with no
digits parses to `(0,0,0,0)`; builds with equal version tuples receive
identical applicability decisions (both per package and through
`check_update_available`). -/
theorem c7_parse_build_version :
    parse_build_version "Nova-3.0.5-64" = (3, 0, 5, 64) ∧
    parse_build_version "3.0.5" = (3, 0, 5, 0) ∧
    (∀ s : String, s.toList.all (fun c => ! c.isDigit) = true →
      parse_build_version s = (0, 0, 0, 0)) ∧
    (∀ b1 b2 : String, parse_build_version b1 = parse_build_version b2 →
      (∀ P, package_applicable (parse_build_version b1) P =
            package_applicable (parse_build_version b2) P) ∧
      (∀ packages, check_update_available b1 packages =
            check_update_available b2 packages)) := by
  refine ⟨by decide, by decide, ?_, ?_⟩
  · intro s hs
    have hall : ∀ c ∈ s.toList, c.isDigit = false := by
      intro c hc
      have := List.all_eq_true.mp hs c hc
      simpa using this
    have hruns : digitRuns s.data = [] :=
      digitRunsAux_nil_of_nodigit s.toList hall
    unfold parse_build_version
    simp [hruns]
  · intro b1 b2 h
    constructor
    · intro P
      rw [h]
    · intro packages
      unfold check_update_available
      rw [h]

/-- Witness for C7: `"abc"` has no digits; `"a3b"` and `"3"` share the
tuple `(3,0,0,0)` and hence the same applicability decisions. -/
theorem c7_parse_build_version_witness :
    parse_build_version "abc" = (0, 0, 0, 0) ∧
    (∀ P, package_applicable (parse_build_version "a3b") P =
          package_applicable (parse_build_version "3") P) :=
  ⟨(c7_parse_build_version).2.2.1 "abc" (by decide),
   ((c7_parse_build_version).2.2.2 "a3b" "3" (by decide)).1⟩

/-! ## Session device info (syncml/session.py) -/

/-- `DeviceInfo` dataclass from syncml/session.py. -/
structure DeviceInfo where
  device_id : String := ""
  manufacturer : String := ""
  model : String := ""
  firmware_version : String := ""
  software_version : String := ""
  hardware_version : String := ""
  current_build : String := ""
  dm_version : String := ""
  language : String := ""
deriving DecidableEq

/-- `Session.update_device_info`: the source's `elif` chain of
case-insensitive substring tests over the entire lowered path. -/
def update_device_info (di : DeviceInfo) (path value : String) : DeviceInfo :=
  let path_lower := lowerString path
  if strContains path_lower "devid" then { di with device_id := value }
  else if strContains path_lower "man" && ! strContains path_lower "command" then
    { di with manufacturer := value }
  else if strContains path_lower "mod" then { di with model := value }
  else if strContains path_lower "fwv" || strContains path_lower "fmv" then
    { di with firmware_version := value }
  else if strContains path_lower "swv" then { di with software_version := value }
  else if strContains path_lower "hwv" then { di with hardware_version := value }
  else if strContains path_lower "build" then { di with current_build := value }
  else if strContains path_lower "dmv" then { di with dm_version := value }
  else if strContains path_lower "lang" then { di with language := value }
  else di

/-- The field-update rule exactly as claim C6 words it: case-insensitive
substring match on the final path segment only, in the claim's table
order (`devid`, `mod`, `man` when `command` is not in the path, `fwv`/`fmv`,
`swv`, `hwv`, `build`, `dmv`, `lang`). -/
def update_device_info_claimed (di : DeviceInfo) (path value : String) : DeviceInfo :=
  let seg := lowerString (String.mk ((splitOnChar '/' path.toList).getLastD path.toList))
  let path_lower := lowerString path
  if strContains seg "devid" then { di with device_id := value }
  else if strContains seg "mod" then { di with model := value }
  else if strContains seg "man" && ! strContains path_lower "command" then
    { di with manufacturer := value }
  else if strContains seg "fwv" || strContains seg "fmv" then
    { di with firmware_version := value }
  else if strContains seg "swv" then { di with software_version := value }
  else if strContains seg "hwv" then { di with hardware_version := value }
  else if strContains seg "build" then { di with current_build := value }
  else if strContains seg "dmv" then { di with dm_version := value }
  else if strContains seg "lang" then { di with language := value }
  else di

/-- Counterexample to C6 as stated: on path `./Man/Mod` the code matches
the substring `man` over the whole path and sets `manufacturer`, while
the claimed final-segment rule would match `mod` and set `model`. -/
theorem c6_final_segment_counterexample :
    update_device_info {} "./Man/Mod" "X" = { manufacturer := "X" } ∧
    update_device_info_claimed {} "./Man/Mod" "X" = { model := "X" } ∧
    update_device_info {} "./Man/Mod" "X" ≠ update_device_info_claimed {} "./Man/Mod" "X" := by
  refine ⟨by decide, by decide, by decide⟩

/-- The rule as amended: matching is by case-insensitive substring over
the ENTIRE path, tested in the source's order (`devid`; `man` excluding
paths containing `command`; `mod`; `fwv`/`fmv`; `swv`; `hwv`; `build`;
`dmv`; `lang`); the first match sets exactly that one field. -/
def update_device_info_amended (di : DeviceInfo) (path value : String) : DeviceInfo :=
  let path_lower := lowerString path
  if strContains path_lower "devid" then { di with device_id := value }
  else if strContains path_lower "man" && ! strContains path_lower "command" then
    { di with manufacturer := value }
  else if strContains path_lower "mod" then { di with model := value }
  else if strContains path_lower "fwv" || strContains path_lower "fmv" then
    { di with firmware_version := value }
  else if strContains path_lower "swv" then { di with software_version := value }
  else if strContains path_lower "hwv" then { di with hardware_version := value }
  else if strContains path_lower "build" then { di with current_build := value }
  else if strContains path_lower "dmv" then { di with dm_version := value }
  else if strContains path_lower "lang" then { di with language := value }
  else di

/-- C6 (amended): `update_device_info` implements whole-path substring
matching in the source's precedence order; in particular a path whose
lowering contains `man` but not `devid` and not `command` sets exactly
`manufacturer`, all other fields unchanged, regardless of its final
segment. -/
theorem c6_update_device_info (di : DeviceInfo) (path value : String) :
    update_device_info di path value = update_device_info_amended di path value ∧
    (strContains (lowerString path) "devid" = false →
     strContains (lowerString path) "man" = true →
     strContains (lowerString path) "command" = false →
      update_device_info di path value = { di with manufacturer := value }) := by
  refine ⟨rfl, ?_⟩
  intro h1 h2 h3
  unfold update_device_info
  simp [h1, h2, h3]

/-- Witness for C6 (amended) on path `./DevDetail/Man`. -/
theorem c6_update_device_info_witness :
    update_device_info {} "./DevDetail/Man" "HP" =
      { ({} : DeviceInfo) with manufacturer := "HP" } :=
  (c6_update_device_info {} "./DevDetail/Man" "HP").2 (by decide) (by decide) (by decide)

/-! ## Byte-level encodings: UTF-8 and Base64 (Python str.encode /
base64 module, external libraries used by the sources) -/

/-- UTF-8 encoding of one scalar value (Python `str.encode('utf-8')`). -/
def utf8EncodeChar (c : Char) : List Nat :=
  let n := c.toNat
  if n < 0x80 then [n]
  else if n < 0x800 then [0xC0 + n / 64, 0x80 + n % 64]
  else if n < 0x10000 then [0xE0 + n / 4096, 0x80 + n / 64 % 64, 0x80 + n % 64]
  else [0xF0 + n / 262144, 0x80 + n / 4096 % 64, 0x80 + n / 64 % 64, 0x80 + n % 64]

/-- Python `s.encode('utf-8')` as a byte list. -/
def strBytes (s : String) : List Nat := (s.toList.map utf8EncodeChar).flatten

/-- Strict UTF-8 decoding (Python `bytes.decode('utf-8')`); `none`
models `UnicodeDecodeError` (invalid leads, truncation, overlongs,
surrogates, out-of-range). -/
def utf8Decode : List Nat → Option (List Char)
  | [] => some []
  | b :: rest =>
    if b < 0x80 then (utf8Decode rest).map (Char.ofNat b :: ·)
    else if 0xC2 ≤ b ∧ b ≤ 0xDF then
      match rest with
      | b2 :: rest2 =>
        if 0x80 ≤ b2 ∧ b2 ≤ 0xBF then
          (utf8Decode rest2).map (Char.ofNat ((b - 0xC0) * 64 + (b2 - 0x80)) :: ·)
        else none
      | [] => none
    else if 0xE0 ≤ b ∧ b ≤ 0xEF then
      match rest with
      | b2 :: b3 :: rest3 =>
        if (0x80 ≤ b2 ∧ b2 ≤ 0xBF) ∧ (0x80 ≤ b3 ∧ b3 ≤ 0xBF) then
          let n := (b - 0xE0) * 4096 + (b2 - 0x80) * 64 + (b3 - 0x80)
          if n < 0x800 ∨ (0xD800 ≤ n ∧ n ≤ 0xDFFF) then none
          else (utf8Decode rest3).map (Char.ofNat n :: ·)
        else none
      | _ => none
    else if 0xF0 ≤ b ∧ b ≤ 0xF4 then
      match rest with
      | b2 :: b3 :: b4 :: rest4 =>
        if (0x80 ≤ b2 ∧ b2 ≤ 0xBF) ∧ (0x80 ≤ b3 ∧ b3 ≤ 0xBF) ∧ (0x80 ≤ b4 ∧ b4 ≤ 0xBF) then
          let n := (b - 0xF0) * 262144 + (b2 - 0x80) * 4096 + (b3 - 0x80) * 64 + (b4 - 0x80)
          if n < 0x10000 ∨ 0x10FFFF < n then none
          else (utf8Decode rest4).map (Char.ofNat n :: ·)
        else none
      | _ => none
    else none

def utf8DecodeBytes (bs : List Nat) : Option String := (utf8Decode bs).map String.mk

def b64Chars : List Char :=
  "ABCDEFGHIJKLMNOPQRSTUVWXYZabcdefghijklmnopqrstuvwxyz0123456789+/".toList

def b64Idx (i : Nat) : Char := b64Chars.getD i 'A'

/-- Standard Base64 (RFC 4648) encoding of a byte list, with `=`
padding: Python `base64.b64encode`. -/
def b64EncodeList : List Nat → List Char
  | [] => []
  | [a] =>
    let n := a * 65536
    [b64Idx (n / 262144 % 64), b64Idx (n / 4096 % 64), '=', '=']
  | [a, b] =>
    let n := a * 65536 + b * 256
    [b64Idx (n / 262144 % 64), b64Idx (n / 4096 % 64), b64Idx (n / 64 % 64), '=']
  | a :: b :: c :: rest =>
    let n := a * 65536 + b * 256 + c
    b64Idx (n / 262144 % 64) :: b64Idx (n / 4096 % 64) :: b64Idx (n / 64 % 64) ::
      b64Idx (n % 64) :: b64EncodeList rest

def base64Encode (bs : List Nat) : String := String.mk (b64EncodeList bs)

def b64CharVal (c : Char) : Option Nat := b64Chars.findIdx? (· = c)

/-- Groups-of-four Base64 decoding with `=` padding allowed only at the
very end. -/
def b64DecodeGroups : List Char → Option (List Nat)
  | [] => some []
  | c1 :: c2 :: c3 :: c4 :: rest =>
    match b64CharVal c1, b64CharVal c2 with
    | some v1, some v2 =>
      if c3 = '=' then
        if c4 = '=' ∧ rest = [] then some [v1 * 4 + v2 / 16] else none
      else
        match b64CharVal c3 with
        | some v3 =>
          if c4 = '=' then
            if rest = [] then some [v1 * 4 + v2 / 16, v2 % 16 * 16 + v3 / 4] else none
          else
            match b64CharVal c4 with
            | some v4 =>
              (b64DecodeGroups rest).map
                (fun tl => (v1 * 4 + v2 / 16) :: (v2 % 16 * 16 + v3 / 4) :: (v3 % 4 * 64 + v4) :: tl)
            | none => none
        | none => none
    | _, _ => none
  | _ => none

/-- Python `base64.b64decode` (default `validate=False`): characters
outside the alphabet and `=` are discarded, then the length must be a
multiple of four; `none` models `binascii.Error`. -/
def base64Decode (s : String) : Option (List Nat) :=
  let kept := s.toList.filter (fun c => (b64CharVal c).isSome || c = '=')
  if kept.length % 4 = 0 then b64DecodeGroups kept else none

/-! ## MD5 and HMAC-MD5 (Python hashlib / hmac, external libraries used
by syncml/auth.py).  32-bit words are `Nat` reduced `% 2^32`. -/

def md5K : List Nat :=
  [0xd76aa478, 0xe8c7b756, 0x242070db, 0xc1bdceee,
   0xf57c0faf, 0x4787c62a, 0xa8304613, 0xfd469501,
   0x698098d8, 0x8b44f7af, 0xffff5bb1, 0x895cd7be,
   0x6b901122, 0xfd987193, 0xa679438e, 0x49b40821,
   0xf61e2562, 0xc040b340, 0x265e5a51, 0xe9b6c7aa,
   0xd62f105d, 0x02441453, 0xd8a1e681, 0xe7d3fbc8,
   0x21e1cde6, 0xc33707d6, 0xf4d50d87, 0x455a14ed,
   0xa9e3e905, 0xfcefa3f8, 0x676f02d9, 0x8d2a4c8a,
   0xfffa3942, 0x8771f681, 0x6d9d6122, 0xfde5380c,
   0xa4beea44, 0x4bdecfa9, 0xf6bb4b60, 0xbebfbc70,
   0x289b7ec6, 0xeaa127fa, 0xd4ef3085, 0x04881d05,
   0xd9d4d039, 0xe6db99e5, 0x1fa27cf8, 0xc4ac5665,
   0xf4292244, 0x432aff97, 0xab9423a7, 0xfc93a039,
   0x655b59c3, 0x8f0ccc92, 0xffeff47d, 0x85845dd1,
   0x6fa87e4f, 0xfe2ce6e0, 0xa3014314, 0x4e0811a1,
   0xf7537e82, 0xbd3af235, 0x2ad7d2bb, 0xeb86d391]

def md5S : List Nat :=
  [7, 12, 17, 22, 7, 12, 17, 22, 7, 12, 17, 22, 7, 12, 17, 22,
   5, 9, 14, 20, 5, 9, 14, 20, 5, 9, 14, 20, 5, 9, 14, 20,
   4, 11, 16, 23, 4, 11, 16, 23, 4, 11, 16, 23, 4, 11, 16, 23,
   6, 10, 15, 21, 6, 10, 15, 21, 6, 10, 15, 21, 6, 10, 15, 21]

/-- Little-endian byte rendering of `n` on `k` bytes. -/
def toLEBytes : Nat → Nat → List Nat
  | 0, _ => []
  | k + 1, n => n % 256 :: toLEBytes k (n / 256)

/-- MD5 padding: `0x80`, zeros to 56 mod 64, 64-bit little-endian bit
length. -/
def md5Pad (msg : List Nat) : List Nat :=
  let len := msg.length
  let padLen := (119 - (len % 64)) % 64
  msg ++ [0x80] ++ List.replicate padLen 0 ++ toLEBytes 8 (len * 8 % 2 ^ 64)

/-- Split a 64-byte chunk into 16 little-endian 32-bit words. -/
def leWords : List Nat → List Nat
  | a :: b :: c :: d :: rest => (a + 256 * b + 65536 * c + 16777216 * d) :: leWords rest
  | _ => []

def rotl32 (x s : Nat) : Nat := ((x <<< s) % 4294967296) ||| (x >>> (32 - s))

def md5F (i b c d : Nat) : Nat :=
  if i < 16 then (b &&& c) ||| ((4294967295 ^^^ b) &&& d)
  else if i < 32 then (d &&& b) ||| ((4294967295 ^^^ d) &&& c)
  else if i < 48 then b ^^^ c ^^^ d
  else c ^^^ (b ||| (4294967295 ^^^ d))

def md5G (i : Nat) : Nat :=
  if i < 16 then i
  else if i < 32 then (5 * i + 1) % 16
  else if i < 48 then (3 * i + 5) % 16
  else 7 * i % 16

def md5Step (w : List Nat) (st : Nat × Nat × Nat × Nat) (i : Nat) : Nat × Nat × Nat × Nat :=
  let (a, b, c, d) := st
  let f := (md5F i b c d + a + md5K.getD i 0 + w.getD (md5G i) 0) % 4294967296
  (d, (b + rotl32 f (md5S.getD i 0)) % 4294967296, b, c)

def md5Chunk (st : Nat × Nat × Nat × Nat) (chunk : List Nat) : Nat × Nat × Nat × Nat :=
  let w := leWords chunk
  let r := (List.range 64).foldl (md5Step w) st
  ((st.1 + r.1) % 4294967296, (st.2.1 + r.2.1) % 4294967296,
   (st.2.2.1 + r.2.2.1) % 4294967296, (st.2.2.2 + r.2.2.2) % 4294967296)

def md5ChunksFuel : Nat → Nat × Nat × Nat × Nat → List Nat → Nat × Nat × Nat × Nat
  | 0, st, _ => st
  | _, st, [] => st
  | fuel + 1, st, b :: rest =>
    md5ChunksFuel fuel (md5Chunk st ((b :: rest).take 64)) ((b :: rest).drop 64)

/-- The 64-byte chunk loop; the padded message has at most
`length / 64 + 2` chunks, so that much fuel always suffices. -/
def md5Chunks (st : Nat × Nat × Nat × Nat) (bytes : List Nat) : Nat × Nat × Nat × Nat :=
  md5ChunksFuel (bytes.length / 64 + 2) st bytes

/-- MD5 of a byte list (RFC 1321), as the 16-byte digest. -/
def md5 (msg : List Nat) : List Nat :=
  let r := md5Chunks (0x67452301, 0xefcdab89, 0x98badcfe, 0x10325476) (md5Pad msg)
  toLEBytes 4 r.1 ++ toLEBytes 4 r.2.1 ++ toLEBytes 4 r.2.2.1 ++ toLEBytes 4 r.2.2.2

/-- HMAC (RFC 2104) instantiated with MD5, block size 64: Python
`hmac.new(key, msg, hashlib.md5).digest()`. -/
def hmacMd5 (key msg : List Nat) : List Nat :=
  let key1 := if 64 < key.length then md5 key else key
  let key2 := key1 ++ List.replicate (64 - key1.length) 0
  let opad := key2.map (fun b => b ^^^ 0x5c)
  let ipad := key2.map (fun b => b ^^^ 0x36)
  md5 (opad ++ md5 (ipad ++ msg))

/-- Sanity anchor: the RFC 1321 test vector for the empty message. -/
lemma md5_nil :
    md5 [] = [0xd4, 0x1d, 0x8c, 0xd9, 0x8f, 0x00, 0xb2, 0x04,
              0xe9, 0x80, 0x09, 0x98, 0xec, 0xf8, 0x42, 0x7e] := by decide

/-! ## Configuration constants.

config.py is not among the sources; these values are modelled from the
spec: §6 enumerates the configuration names and the numeric status and
alert codes, and scenario 5 fixes `guest`/`guest` as the default
credentials.  No claim settled here depends on the particular string
values. -/

/-- Modelled from the spec: `DEFAULT_USERNAME` (scenario 5: `guest`). -/
def DEFAULT_USERNAME : String := "guest"

/-- Modelled from the spec: `DEFAULT_PASSWORD` (scenario 5: `guest`). -/
def DEFAULT_PASSWORD : String := "guest"

/-- Modelled from the spec: `SERVER_ID` (scenario 1: `SERVER-ID`). -/
def SERVER_ID : String := "SERVER-ID"

/-- Modelled from the spec: `SERVER_URL`, the base URL for package
downloads. -/
def SERVER_URL : String := "http://localhost:8080"

/-- Modelled from the spec: `STATUS_OK=200`. -/
def STATUS_OK : Nat := 200

/-- Modelled from the spec: `STATUS_AUTH_ACCEPTED=212`. -/
def STATUS_AUTH_ACCEPTED : Nat := 212

/-- Modelled from the spec: `STATUS_CREDENTIALS_MISSING=401`. -/
def STATUS_CREDENTIALS_MISSING : Nat := 401

/-- Modelled from the spec: `ALERT_CLIENT_INITIATED=1201`. -/
def ALERT_CLIENT_INITIATED : Int := 1201

/-- Modelled from the spec: `ALERT_SERVER_INITIATED=1200`. -/
def ALERT_SERVER_INITIATED : Int := 1200

/-! ## HMAC authentication (syncml/auth.py) -/

/-- `HMACAuth.compute_hmac`:
1. `cred_b64 = b64(md5(username:password))`,
2. `body_b64 = b64(md5(body))`,
3. `b64(HMAC-MD5(cred_b64, nonce + b":" + body_b64))`. -/
def compute_hmac (username password : String) (nonce body : List Nat) : String :=
  let cred_hash := md5 (strBytes (username ++ ":" ++ password))
  let cred_b64 := base64Encode cred_hash
  let body_hash := md5 body
  let body_b64 := base64Encode body_hash
  let message := nonce ++ strBytes ":" ++ strBytes body_b64
  let mac := hmacMd5 (strBytes cred_b64) message
  base64Encode mac

/-- The MAC formula exactly as the spec's glossary words it:
`base64(HMAC_MD5(base64(md5(user:pass)), nonce || ':' || base64(md5(body))))`. -/
def hmac_spec_formula (username password : String) (nonce body : List Nat) : String :=
  base64Encode (hmacMd5
    (strBytes (base64Encode (md5 (strBytes (username ++ ":" ++ password)))))
    (nonce ++ strBytes ":" ++ strBytes (base64Encode (md5 body))))

/-- `HMACAuth.verify_client_auth` with the nonce passed explicitly (the
source defaults a `None` nonce to the stored server nonce or `b""`).
The handler is constructed with the configured defaults, so
`self.password = DEFAULT_PASSWORD` and `self.username = DEFAULT_USERNAME`. -/
def verify_client_auth (mac username : String) (body nonce : List Nat) : Bool :=
  let expected := compute_hmac username DEFAULT_PASSWORD nonce body
  if mac = expected then true
  else if username ≠ DEFAULT_USERNAME then
    decide (mac = compute_hmac DEFAULT_USERNAME DEFAULT_PASSWORD nonce body)
  else false

/-- Python `decoded.split(':', 1)` two-way unpacking; `none` models the
`ValueError` when no colon is present. -/
def splitFirstColon (s : String) : Option (String × String) :=
  match splitOnChar ':' s.toList with
  | [] => none
  | [_] => none
  | x :: rest => some (String.mk x, String.mk (joinWith ':' rest))

/-- `HMACAuth.verify_from_cred`: returns `(success, username)`. -/
def verify_from_cred (cred_data : String) (cred_type : Option String) (body : List Nat) :
    Bool × String :=
  if ! pyTruthyOpt cred_type || ! strContains (cred_type.getD "") "auth-MAC" then
    -- no MAC auth: try basic, else accept
    if pyTruthyOpt cred_type && strContains (cred_type.getD "") "auth-basic" then
      match base64Decode cred_data with
      | some bytes =>
        match utf8DecodeBytes bytes with
        | some decoded =>
          match splitFirstColon decoded with
          | some (username, password) =>
            if password = DEFAULT_PASSWORD then (true, username) else (true, "anonymous")
          | none => (true, "anonymous")
        | none => (true, "anonymous")
      | none => (true, "anonymous")
    else (true, "anonymous")
  else
    -- MAC authentication: "For simplicity, accept the credentials"
    (true, DEFAULT_USERNAME)

/-- Insertion-ordered dictionary update (Python dict semantics:
overwriting keeps the original position). -/
def dictSet (d : List (String × String)) (k v : String) : List (String × String) :=
  if d.any (fun kv => kv.1 = k) then d.map (fun kv => if kv.1 = k then (k, v) else kv)
  else d ++ [(k, v)]

def dictGet (d : List (String × String)) (k : String) : Option String :=
  (d.find? (fun kv => kv.1 = k)).map (fun kv => kv.2)

def dictGetD (d : List (String × String)) (k dflt : String) : String :=
  (dictGet d k).getD dflt

/-- `HMACAuth.parse_hmac_header`: split on commas, strip, split each
part at the first `=`, strip key and value. -/
def parse_hmac_header (header : String) : List (String × String) :=
  (splitOnChar ',' header.toList).foldl
    (fun acc part =>
      let part := strTrim (String.mk part)
      match splitOnChar '=' part.toList with
      | [] => acc
      | [_] => acc
      | k :: rest =>
        dictSet acc (strTrim (String.mk k)) (strTrim (String.mk (joinWith '=' rest))))
    []

/-! ## Sessions (syncml/session.py) -/

inductive SessionState where
  | init
  | authenticated
  | management
  | update_available
  | downloading
  | complete
  | error
deriving DecidableEq

/-- `SessionState.value` strings used by the dispatcher. -/
def stateValue : SessionState → String
  | .init => "init"
  | .authenticated => "authenticated"
  | .management => "management"
  | .update_available => "update_available"
  | .downloading => "downloading"
  | .complete => "complete"
  | .error => "error"

structure CommandResult where
  cmd : Option String := none
  status : Int := 0
  target : String := ""
deriving DecidableEq

/-- `Session` dataclass (the wall-clock fields `created_at` and
`last_activity` and the unused `pending_commands` are omitted). -/
structure Session where
  session_id : String
  device_id : String
  state : SessionState := .init
  msg_id : Nat := 0
  device_info : DeviceInfo := {}
  authenticated : Bool := false
  username : String := ""
  client_nonce : List Nat := []
  server_nonce : List Nat := []
  command_results : List (String × CommandResult) := []
deriving DecidableEq

/-- `Session.next_msg_id`: increment and render. -/
def next_msg_id (s : Session) : String × Session :=
  (toString (s.msg_id + 1), { s with msg_id := s.msg_id + 1 })

/-! ## The authentication block of `oma_dm_endpoint` (server.py
lines 136-166) -/

/-- The authentication step: for an unauthenticated session, verify the
`x-syncml-hmac` header if present (empty string models an absent
header), and set `authenticated`/`username`. -/
def authStep (session : Session) (hmac_header : String) (cred_data : Option String)
    (body : List Nat) : Session :=
  if session.authenticated then session
  else
    let s1 :=
      if hmac_header ≠ "" then
        let hmac_parts := parse_hmac_header hmac_header
        let client_mac := dictGetD hmac_parts "mac" ""
        let client_username := dictGetD hmac_parts "username" DEFAULT_USERNAME
        let verify_nonce := if session.server_nonce ≠ [] then session.server_nonce else []
        let expected_mac := compute_hmac client_username DEFAULT_PASSWORD verify_nonce body
        if client_mac = expected_mac then { session with authenticated := true }
        else
          -- MAC mismatch: "Accept anyway for now to debug further"
          { session with authenticated := true }
      else
        -- no HMAC header: "No HMAC - accept for testing"
        { session with authenticated := true }
    { s1 with username := pyOrOpt cred_data "guest" }

/-- C3: `compute_hmac` is exactly the spec's double-hash-plus-nonce
formula (determinism is immediate, `compute_hmac` being a function), and
verification of a MAC computed with the configured password succeeds. -/
theorem c3_compute_hmac (u p : String) (n b : List Nat) :
    compute_hmac u p n b = hmac_spec_formula u p n b ∧
    verify_client_auth (compute_hmac u DEFAULT_PASSWORD n b) u b n = true := by
  refine ⟨rfl, ?_⟩
  unfold verify_client_auth
  simp

/-- C10: whenever `Cred/Meta/Type` contains `auth-MAC`,
`verify_from_cred` returns `(True, configured username)` for every
`cred_data` and every `body`: the carried MAC is never checked. -/
theorem c10_verify_from_cred (cred_data : String) (cred_type : String) (body : List Nat)
    (h : strContains cred_type "auth-MAC" = true) :
    verify_from_cred cred_data (some cred_type) body = (true, DEFAULT_USERNAME) := by
  unfold verify_from_cred
  by_cases hct : cred_type = ""
  · subst hct
    exact absurd h (by decide)
  · simp [pyTruthyOpt, hct, h]

/-- Witness for C10: an arbitrary `cred_data` and body are accepted
under `syncml:auth-MAC`. -/
theorem c10_verify_from_cred_witness :
    verify_from_cred "Tm90QVJlYWxNYWM=" (some "syncml:auth-MAC") (strBytes "<SyncML/>") =
      (true, DEFAULT_USERNAME) :=
  c10_verify_from_cred "Tm90QVJlYWxNYWM=" "syncml:auth-MAC" (strBytes "<SyncML/>")
    (by decide)

/-- The authentication outcome of the endpoint's auth block, used by
claim C2 (the response-production half is stated together with it after
the dispatch loop is defined). -/
lemma authStep_authenticated (session : Session) (hmac_header : String)
    (cred_data : Option String) (body : List Nat)
    (h : session.authenticated = false) :
    (authStep session hmac_header cred_data body).authenticated = true := by
  unfold authStep
  rw [h]
  simp only [Bool.false_eq_true, if_false]
  repeat' split
  all_goals rfl

def c2_session : Session := { session_id := "42", device_id := "DEV-A" }

/-! ## WBXML token tables (wbxml/tokens.py) -/

def SWITCH_PAGE : Nat := 0x00
def END_TOKEN : Nat := 0x01
def STR_I : Nat := 0x03
def LITERAL : Nat := 0x04
def STR_T : Nat := 0x83
def OPAQUE : Nat := 0xC3
def TAG_HAS_CONTENT : Nat := 0x40
def TAG_HAS_ATTRS : Nat := 0x80
def SYNCML_1_2_PUBLIC_ID : Nat := 0x1201

/-- SyncML tag tokens, code page `0x00`. -/
def SYNCML_TAGS : List (Nat × String) :=
  [(0x05, "Add"), (0x06, "Alert"), (0x07, "Archive"), (0x08, "Atomic"),
   (0x09, "Chal"), (0x0A, "Cmd"), (0x0B, "CmdID"), (0x0C, "CmdRef"),
   (0x0D, "Copy"), (0x0E, "Cred"), (0x0F, "Data"), (0x10, "Delete"),
   (0x11, "Exec"), (0x12, "Final"), (0x13, "Get"), (0x14, "Item"),
   (0x15, "Lang"), (0x16, "LocName"), (0x17, "LocURI"), (0x18, "Map"),
   (0x19, "MapItem"), (0x1A, "Meta"), (0x1B, "MsgID"), (0x1C, "MsgRef"),
   (0x1D, "NoResp"), (0x1E, "NoResults"), (0x1F, "Put"), (0x20, "Replace"),
   (0x21, "RespURI"), (0x22, "Results"), (0x23, "Search"), (0x24, "Sequence"),
   (0x25, "SessionID"), (0x26, "SftDel"), (0x27, "Source"), (0x28, "SourceRef"),
   (0x29, "Status"), (0x2A, "Sync"), (0x2B, "SyncBody"), (0x2C, "SyncHdr"),
   (0x2D, "SyncML"), (0x2E, "Target"), (0x2F, "TargetRef"), (0x30, "Reserved"),
   (0x31, "VerDTD"), (0x32, "VerProto"), (0x33, "NumberOfChanges"),
   (0x34, "MoreData"), (0x35, "Field"), (0x36, "Filter"), (0x37, "Record"),
   (0x38, "FilterType"), (0x39, "SourceParent"), (0x3A, "TargetParent"),
   (0x3B, "Move"), (0x3C, "Correlator")]

/-- MetInf tag tokens, code page `0x01`. -/
def METINF_TAGS : List (Nat × String) :=
  [(0x05, "Anchor"), (0x06, "EMI"), (0x07, "Format"), (0x08, "FreeID"),
   (0x09, "FreeMem"), (0x0A, "Last"), (0x0B, "Mark"), (0x0C, "MaxMsgSize"),
   (0x0D, "Mem"), (0x0E, "MetInf"), (0x0F, "Next"), (0x10, "NextNonce"),
   (0x11, "SharedMem"), (0x12, "Size"), (0x13, "Type"), (0x14, "Version"),
   (0x15, "MaxObjSize"), (0x16, "FieldLevel")]

/-- `CODE_PAGES.get(page, SYNCML_TAGS)`. -/
def tags_for_page (page : Nat) : List (Nat × String) :=
  if page = 0 then SYNCML_TAGS else if page = 1 then METINF_TAGS else SYNCML_TAGS

def lookupTag (tags : List (Nat × String)) (tok : Nat) : Option String :=
  (tags.find? (fun kv => kv.1 = tok)).map (fun kv => kv.2)

/-- The reverse tables `{v: k for k, v in ...}` (tag names are unique in
each page, so first match equals dict lookup). -/
def lookupTok (tags : List (Nat × String)) (name : String) : Option Nat :=
  (tags.find? (fun kv => kv.2 = name)).map (fun kv => kv.1)

def hexDigit (n : Nat) : Char := "0123456789ABCDEF".toList.getD n '0'

/-- `WBXMLDecoder.get_tag_name`: name in the current code page, or the
`Unknown_0xNN` placeholder. -/
def get_tag_name (page token : Nat) : String :=
  let tag_token := token % 64
  match lookupTag (tags_for_page page) tag_token with
  | some n => n
  | none => "Unknown_0x" ++ String.mk [hexDigit (tag_token / 16), hexDigit (tag_token % 16)]

/-! ## Element trees (the codec IR: xml.etree.ElementTree elements).
A mutual inductive is used so that all recursions are structural and
kernel-evaluable. -/

mutual
inductive XElem where
  | mk (tag : String) (attrs : List (String × String)) (text : Option String)
       (tailText : Option String) (children : XList)
inductive XList where
  | nil
  | cons (head : XElem) (tl : XList)
end

def XElem.tag : XElem → String
  | .mk t _ _ _ _ => t

def XElem.attrs : XElem → List (String × String)
  | .mk _ a _ _ _ => a

def XElem.text : XElem → Option String
  | .mk _ _ t _ _ => t

def XElem.tailText : XElem → Option String
  | .mk _ _ _ t _ => t

def XElem.children : XElem → XList
  | .mk _ _ _ _ c => c

def XList.toList : XList → List XElem
  | .nil => []
  | .cons x l => x :: XList.toList l

def XList.ofList : List XElem → XList
  | [] => .nil
  | x :: l => .cons x (XList.ofList l)

/-- Leaf element with text content. -/
def txtEl (tag s : String) : XElem := .mk tag [] (some s) none .nil

/-- Element with child elements only. -/
def el (tag : String) (children : List XElem) : XElem :=
  .mk tag [] none none (XList.ofList children)

/-! ## WBXML decoder (wbxml/codec.py WBXMLDecoder) -/

/-- `get_string_from_table`: NUL-terminated string at `offset` (to the
end of the table when no NUL follows). -/
def get_string_from_table (tbl : List Nat) (offset : Nat) : Option String :=
  utf8DecodeBytes ((tbl.drop offset).takeWhile (fun b => b ≠ 0))

/-- `read_string`: NUL-terminated inline UTF-8; `none` models running
off the end of the data or a decode error. -/
def read_inline_string (l : List Nat) : Option (String × List Nat) :=
  let pre := l.takeWhile (fun b => b ≠ 0)
  match l.drop pre.length with
  | [] => none
  | _ :: rest => (utf8DecodeBytes pre).map (fun s => (s, rest))

/-- `parse_attributes`: skip tokens up to the closing `END` (the source
ignores attribute content); `none` models running off the end. -/
def skip_attributes (l : List Nat) : Option (List Nat) :=
  let pre := l.takeWhile (fun b => b ≠ END_TOKEN)
  match l.drop pre.length with
  | [] => none
  | _ :: rest => some rest

/-- Python `''.join(parts)`. -/
def joinStrings (parts : List String) : String :=
  parts.foldl (fun a s => a ++ s) ""

mutual

/-- `WBXMLDecoder.parse_element`.  Returns `(element?, current page,
remaining bytes)`; the inner `none` is the `END` token, the outer `none`
any decoding error.  Fuel is structural (each recursive call consumes a
byte or is charged one fuel for the pushed-back tag token). -/
def parse_element : Nat → List Nat → Nat → List Nat →
    Option (Option XElem × Nat × List Nat)
  | 0, _, _, _ => none
  | _ + 1, _, _, [] => none
  | fuel + 1, tbl, page, token :: rest =>
    if token = SWITCH_PAGE then
      match rest with
      | [] => none
      | p :: rest2 => parse_element fuel tbl p rest2
    else if token = END_TOKEN then
      some (none, page, rest)
    else
      let has_content := token &&& TAG_HAS_CONTENT ≠ 0
      let has_attrs := token &&& TAG_HAS_ATTRS ≠ 0
      let nameRest : Option (String × List Nat) :=
        if token &&& 0x3F = LITERAL then
          match read_mb_uint32 rest with
          | none => none
          | some (idx, rest2) =>
            match get_string_from_table tbl idx with
            | none => none
            | some nm => some (nm, rest2)
        else some (get_tag_name page token, rest)
      match nameRest with
      | none => none
      | some (nm, rest2) =>
        match (if has_attrs then skip_attributes rest2 else some rest2) with
        | none => none
        | some rest3 =>
          if has_content then
            match parse_content fuel tbl page rest3 [] [] with
            | none => none
            | some (texts, kids, page2, rest4) =>
              some (some (XElem.mk nm []
                (if texts ≠ [] then some (joinStrings texts) else none) none
                (XList.ofList kids)), page2, rest4)
          else
            some (some (XElem.mk nm [] none none .nil), page, rest3)

/-- `WBXMLDecoder.parse_content`: accumulate text parts and child
elements until `END`. -/
def parse_content : Nat → List Nat → Nat → List Nat → List String → List XElem →
    Option (List String × List XElem × Nat × List Nat)
  | 0, _, _, _, _, _ => none
  | _ + 1, _, _, [], _, _ => none
  | fuel + 1, tbl, page, token :: rest, texts, kids =>
    if token = END_TOKEN then
      some (texts, kids, page, rest)
    else if token = SWITCH_PAGE then
      match rest with
      | [] => none
      | p :: rest2 => parse_content fuel tbl p rest2 texts kids
    else if token = STR_I then
      match read_inline_string rest with
      | none => none
      | some (s, rest2) => parse_content fuel tbl page rest2 (texts ++ [s]) kids
    else if token = STR_T then
      match read_mb_uint32 rest with
      | none => none
      | some (off, rest2) =>
        match get_string_from_table tbl off with
        | none => none
        | some s => parse_content fuel tbl page rest2 (texts ++ [s]) kids
    else if token = OPAQUE then
      match read_mb_uint32 rest with
      | none => none
      | some (len, rest2) =>
        let dataBytes := rest2.take len
        let s := match utf8DecodeBytes dataBytes with
          | some s => s
          | none => base64Encode dataBytes
        parse_content fuel tbl page (rest2.drop len) (texts ++ [s]) kids
    else
      -- a tag: push the token back (the source does `self.pos -= 1`)
      match parse_element fuel tbl page (token :: rest) with
      | none => none
      | some (child, page2, rest2) =>
        match child with
        | some c => parse_content fuel tbl page2 rest2 texts (kids ++ [c])
        | none => parse_content fuel tbl page2 rest2 texts kids

end

/-- `WBXMLDecoder.decode`: header (version, public id with the
string-table indirection when zero, charset, string table), then the
body's root element.  `none` models any raised exception (and the
degenerate `None` root). -/
def wbxml_decode (data : List Nat) : Option XElem :=
  match data with
  | [] => none
  | _version :: r1 =>
    match read_mb_uint32 r1 with
    | none => none
    | some (public_id, r2) =>
      match (if public_id = 0 then (read_mb_uint32 r2).map (fun pr => pr.2) else some r2) with
      | none => none
      | some r3 =>
        match read_mb_uint32 r3 with
        | none => none
        | some (_charset, r4) =>
          match read_mb_uint32 r4 with
          | none => none
          | some (stlen, r5) =>
            let tbl := if 0 < stlen then r5.take stlen else []
            let body := if 0 < stlen then r5.drop stlen else r5
            match parse_element (2 * body.length + 2) tbl 0 body with
            | none => none
            | some (root, _, _) => root

/-! ## WBXML encoder (wbxml/codec.py WBXMLEncoder) -/

mutual
/-- `build_string_table`: tags unknown to both code pages, in document
order. -/
def collect_literals : XElem → List String
  | .mk tag _ _ _ children =>
    (if (lookupTok SYNCML_TAGS tag).isNone && (lookupTok METINF_TAGS tag).isNone
     then [tag] else []) ++ collect_literals_list children
def collect_literals_list : XList → List String
  | .nil => []
  | .cons c cs => collect_literals c ++ collect_literals_list cs
end

/-- First-occurrence deduplication (`add_to_string_table` skips strings
already in the table). -/
def dedupStrings (l : List String) : List String :=
  l.foldl (fun acc s => if acc.contains s then acc else acc ++ [s]) []

/-- Byte offsets of the table entries (each entry is its UTF-8 bytes
plus a NUL). -/
def string_table_index (names : List String) : List (String × Nat) :=
  (names.foldl
    (fun (acc : List (String × Nat) × Nat) s =>
      (acc.1 ++ [(s, acc.2)], acc.2 + (strBytes s).length + 1))
    ([], 0)).1

def string_table_bytes (names : List String) : List Nat :=
  (names.map (fun s => strBytes s ++ [0])).flatten

/-- `switch_page`: emit `SWITCH_PAGE page` when changing pages. -/
def switch_bytes (cur target : Nat) : List Nat × Nat :=
  if target ≠ cur then ([SWITCH_PAGE, target], target) else ([], cur)

/-- `write_string` (STR_I + UTF-8 + NUL). -/
def write_inline_string (s : String) : List Nat := STR_I :: strBytes s ++ [0]

mutual

/-- `WBXMLEncoder.encode_element`: choose page 0 then page 1, else
LITERAL via the string table; the content flag is set when the element
has truthy text or children; attributes are never emitted. -/
def encode_element (stIdx : List (String × Nat)) (page : Nat) : XElem → List Nat × Nat
  | .mk tag _ text _ children =>
    let has_content := pyTruthyOpt text || ! children.toList.isEmpty
    let contentAfter : Nat → List Nat × Nat := fun p =>
      if has_content then
        let tb := match text with
          | some s => if s ≠ "" then write_inline_string s else []
          | none => []
        let (cb, p2) := encode_children stIdx p children
        (tb ++ cb ++ [END_TOKEN], p2)
      else ([], p)
    match lookupTok SYNCML_TAGS tag with
    | some t =>
      let (sw, p1) := switch_bytes page 0
      let tok := if has_content then t + TAG_HAS_CONTENT else t
      let (body, p2) := contentAfter p1
      (sw ++ [tok] ++ body, p2)
    | none =>
      match lookupTok METINF_TAGS tag with
      | some t =>
        let (sw, p1) := switch_bytes page 1
        let tok := if has_content then t + TAG_HAS_CONTENT else t
        let (body, p2) := contentAfter p1
        (sw ++ [tok] ++ body, p2)
      | none =>
        let (sw, p1) := switch_bytes page 0
        let tok := if has_content then LITERAL + TAG_HAS_CONTENT else LITERAL
        let offset := ((stIdx.find? (fun kv => kv.1 = tag)).map (fun kv => kv.2)).getD 0
        let (body, p2) := contentAfter p1
        (sw ++ [tok] ++ write_mb_uint32 offset ++ body, p2)

/-- Children in order, each followed by its tail text when truthy; the
current page persists across siblings. -/
def encode_children (stIdx : List (String × Nat)) (page : Nat) : XList → List Nat × Nat
  | .nil => ([], page)
  | .cons c cs =>
    let (b1, p1) := encode_element stIdx page c
    let tb := match c.tailText with
      | some s => if s ≠ "" then write_inline_string s else []
      | none => []
    let (b2, p2) := encode_children stIdx p1 cs
    (b1 ++ tb ++ b2, p2)

end

/-- `WBXMLEncoder.encode`: version 1.3, public id `0x1201`, charset 106,
string table, body. -/
def wbxml_encode (root : XElem) : List Nat :=
  let names := dedupStrings (collect_literals root)
  let stIdx := string_table_index names
  let st := string_table_bytes names
  let body := (encode_element stIdx 0 root).1
  0x03 :: write_mb_uint32 SYNCML_1_2_PUBLIC_ID ++ write_mb_uint32 106 ++
    write_mb_uint32 st.length ++ st ++ body

/-- C8 (as stated): the spec's byte string `03 01 6A 00 00 2D 00 01`
does NOT decode: after the empty string table the two `0x00` bytes are
SWITCH_PAGE tokens and the decoder runs off the end of the data. -/
theorem c8_decode_counterexample :
    wbxml_decode [0x03, 0x01, 0x6A, 0x00, 0x00, 0x2D, 0x00, 0x01] = none := rfl

/-- C8 (amended): without the stray `0x00` the bytes
`03 01 6A 00 2D 00 01` (version 1.3, public id 1, charset UTF-8, empty
string table, `SyncML` tag without content flag) decode to `<SyncML/>`;
the decoder ignores trailing bytes. -/
theorem c8_decode_amended :
    wbxml_decode [0x03, 0x01, 0x6A, 0x00, 0x2D, 0x00, 0x01] =
      some (XElem.mk "SyncML" [] none none .nil) := rfl

/-! ## SyncML message model and parsing (syncml/parser.py) -/

structure SyncMLHeader where
  ver_dtd : String := "1.2"
  ver_proto : String := "DM/1.2"
  session_id : String := ""
  msg_id : String := ""
  target : String := ""
  source : String := ""
  cred_type : Option String := none
  cred_data : Option String := none
  cred_format : Option String := none
  meta : List (String × String) := []
deriving DecidableEq

structure SyncMLItem where
  target : Option String := none
  source : Option String := none
  data : Option String := none
  meta : List (String × String) := []
deriving DecidableEq

structure SyncMLCommand where
  name : String := ""
  cmd_id : String := ""
  msg_ref : Option String := none
  cmd_ref : Option String := none
  cmd : Option String := none
  target_ref : Option String := none
  source_ref : Option String := none
  data : Option String := none
  items : List SyncMLItem := []
  meta : List (String × String) := []
  no_resp : Bool := false
deriving DecidableEq

structure SyncMLMessage where
  header : SyncMLHeader := {}
  commands : List SyncMLCommand := []
  is_final : Bool := false
deriving DecidableEq

/-- `elem.find(tag)`: first direct child with the given tag. -/
def findChild (e : XElem) (tag : String) : Option XElem :=
  e.children.toList.find? (fun c => c.tag = tag)

/-- `root.find('.//' + tag)`: first matching descendant in document
order (the root itself is not considered). -/
def findDesc (tag : String) : XList → Option XElem
  | .nil => none
  | .cons (XElem.mk t a tx tl ch) rest =>
    if t = tag then some (XElem.mk t a tx tl ch)
    else
      match findDesc tag ch with
      | some r => some r
      | none => findDesc tag rest

/-- `_get_text(elem, tag)` with `default=None`: the child's text if the
child exists and its text is truthy. -/
def get_text_opt (e : XElem) (tag : String) : Option String :=
  match findChild e tag with
  | some c =>
    match c.text with
    | some t => if t ≠ "" then some t else none
    | none => none
  | none => none

/-- `_get_text(elem, tag, default)`. -/
def get_text_d (e : XElem) (tag dflt : String) : String :=
  (get_text_opt e tag).getD dflt

/-- `_parse_meta`: child tag/text pairs (truthy text only), with dict
overwrite semantics. -/
def parse_meta (m : XElem) : List (String × String) :=
  m.children.toList.foldl
    (fun acc c =>
      match c.text with
      | some t => if t ≠ "" then dictSet acc c.tag t else acc
      | none => acc)
    []

/-- `_parse_item`. -/
def parse_item (e : XElem) : SyncMLItem :=
  { target := (findChild e "Target").map (fun t => get_text_d t "LocURI" ""),
    source := (findChild e "Source").map (fun s => get_text_d s "LocURI" ""),
    data := get_text_opt e "Data",
    meta := match findChild e "Meta" with | some m => parse_meta m | none => [] }

/-- `_parse_command`. -/
def parse_command (e : XElem) : SyncMLCommand :=
  { name := e.tag,
    cmd_id := get_text_d e "CmdID" "",
    msg_ref := get_text_opt e "MsgRef",
    cmd_ref := get_text_opt e "CmdRef",
    cmd := get_text_opt e "Cmd",
    target_ref := get_text_opt e "TargetRef",
    source_ref := get_text_opt e "SourceRef",
    data := get_text_opt e "Data",
    items := (e.children.toList.filter (fun c => c.tag = "Item")).map parse_item,
    meta := match findChild e "Meta" with | some m => parse_meta m | none => [],
    no_resp := (findChild e "NoResp").isSome }

/-- `_parse_header`. -/
def parse_header (hdr : XElem) : SyncMLHeader :=
  let base : SyncMLHeader :=
    { ver_dtd := get_text_d hdr "VerDTD" "1.2",
      ver_proto := get_text_d hdr "VerProto" "DM/1.2",
      session_id := get_text_d hdr "SessionID" "",
      msg_id := get_text_d hdr "MsgID" "",
      target := match findChild hdr "Target" with
        | some t => get_text_d t "LocURI" ""
        | none => "",
      source := match findChild hdr "Source" with
        | some s => get_text_d s "LocURI" ""
        | none => "" }
  let withCred := match findChild hdr "Cred" with
    | some cred =>
      let base1 := match findChild cred "Meta" with
        | some m =>
          { base with cred_type := some (get_text_d m "Type" ""),
                      cred_format := some (get_text_d m "Format" "") }
        | none => base
      { base1 with cred_data := some (get_text_d cred "Data" "") }
    | none => base
  match findChild hdr "Meta" with
  | some m => { withCred with meta := parse_meta m }
  | none => withCred

/-- `_parse_body`: every child of `SyncBody` other than `Final` becomes
a command. -/
def parse_body (body : XElem) : List SyncMLCommand :=
  (body.children.toList.filter (fun c => c.tag ≠ "Final")).map parse_command

/-- `_parse_syncml`: locate `SyncHdr` and `SyncBody` (descendant search
with a direct-child fallback) and assemble the message; defaults stand
when they are not found. -/
def parse_syncml (root : XElem) : SyncMLMessage :=
  let hdrOpt := match findDesc "SyncHdr" root.children with
    | some h => some h
    | none => findChild root "SyncHdr"
  let msg1 : SyncMLMessage := match hdrOpt with
    | some h => { header := parse_header h }
    | none => {}
  let bodyOpt := match findDesc "SyncBody" root.children with
    | some b => some b
    | none => findChild root "SyncBody"
  match bodyOpt with
  | some body =>
    { msg1 with commands := parse_body body, is_final := (findChild body "Final").isSome }
  | none => msg1

/-! ## ElementTree XML round-trip semantics.

Modelled from the behavior of Python's `xml.etree.ElementTree` (an
external library): serializing a tree whose root carries an `xmlns`
attribute and re-parsing it with `ET.fromstring` turns that attribute
into a default namespace, so every tag comes back in Clark notation
(`{namespace}tag`) and the `xmlns` attribute itself is no longer
reported.  That is the only attribute the builder ever sets. -/

def nsTag (ns tag : String) : String := "\x7b" ++ ns ++ "\x7d" ++ tag

mutual
def prefixTags (ns : String) : XElem → XElem
  | .mk tag attrs text tl ch => .mk (nsTag ns tag) attrs text tl (prefixTagsList ns ch)
def prefixTagsList (ns : String) : XList → XList
  | .nil => .nil
  | .cons c cs => .cons (prefixTags ns c) (prefixTagsList ns cs)
end

/-- `ET.fromstring(ET.tostring(e))` for the builder's trees. -/
def applyDefaultNamespace (e : XElem) : XElem :=
  match e.attrs.find? (fun kv => kv.1 = "xmlns") with
  | some kv =>
    match e with
    | .mk tag attrs text tl ch =>
      .mk (nsTag kv.2 tag) (attrs.filter (fun a => a.1 ≠ "xmlns")) text tl
        (prefixTagsList kv.2 ch)
  | none => e

/-! ## Builder (syncml/builder.py SyncMLBuilder).  The builder's
`cmd_id_counter` is threaded explicitly. -/

structure StatusItem where
  target : Option String := none
  data : Option String := none

structure StatusBuilder where
  cmd_id : String := ""
  msg_ref : String := ""
  cmd_ref : String := ""
  cmd : String := ""
  data : Nat := 0
  target_ref : Option String := none
  source_ref : Option String := none
  items : List StatusItem := []

structure ItemBuilder where
  target : Option String := none
  source : Option String := none
  data : Option String := none
  meta : List (String × String) := []

/-- `next_cmd_id`: increment the counter and render it. -/
def next_cmd_id (c : Nat) : String × Nat := (toString (c + 1), c + 1)

/-- `_build_status`. -/
def build_status_elem (c : Nat) (st : StatusBuilder) : XElem × Nat :=
  let (cid, c1) := next_cmd_id c
  let base := [txtEl "CmdID" cid, txtEl "MsgRef" st.msg_ref, txtEl "CmdRef" st.cmd_ref,
               txtEl "Cmd" st.cmd, txtEl "Data" (toString st.data)]
  let tr := if pyTruthyOpt st.target_ref then [txtEl "TargetRef" (st.target_ref.getD "")] else []
  let sr := if pyTruthyOpt st.source_ref then [txtEl "SourceRef" (st.source_ref.getD "")] else []
  let items := st.items.map (fun it =>
    el "Item"
      ((match it.target with
        | some t => [el "Target" [txtEl "LocURI" t]]
        | none => []) ++
       (match it.data with
        | some d => [txtEl "Data" d]
        | none => [])))
  (el "Status" (base ++ tr ++ sr ++ items), c1)

/-- `build_get`. -/
def build_get (c : Nat) (targets : List String) : XElem × Nat :=
  let (cid, c1) := next_cmd_id c
  (el "Get" (txtEl "CmdID" cid ::
    targets.map (fun t => el "Item" [el "Target" [txtEl "LocURI" t]])), c1)

/-- The `Item` element of `build_replace`. -/
def replace_item_elem (it : ItemBuilder) : XElem :=
  el "Item"
    ((if pyTruthyOpt it.target then [el "Target" [txtEl "LocURI" (it.target.getD "")]] else []) ++
     (if pyTruthyOpt it.source then [el "Source" [txtEl "LocURI" (it.source.getD "")]] else []) ++
     (if ! it.meta.isEmpty then [el "Meta" (it.meta.map (fun kv => txtEl kv.1 kv.2))] else []) ++
     (match it.data with
      | some d => [txtEl "Data" d]
      | none => []))

/-- `build_replace`. -/
def build_replace (c : Nat) (items : List ItemBuilder) : XElem × Nat :=
  let (cid, c1) := next_cmd_id c
  (el "Replace" (txtEl "CmdID" cid :: items.map replace_item_elem), c1)

/-- `build_exec`. -/
def build_exec (c : Nat) (target : String) (data : Option String) : XElem × Nat :=
  let (cid, c1) := next_cmd_id c
  (el "Exec" [txtEl "CmdID" cid,
    el "Item" (el "Target" [txtEl "LocURI" target] ::
      (if pyTruthyOpt data then [txtEl "Data" (data.getD "")] else []))], c1)

/-- The `Item` element of `build_results`. -/
def results_item_elem (it : ItemBuilder) : XElem :=
  el "Item"
    ((if pyTruthyOpt it.source then [el "Source" [txtEl "LocURI" (it.source.getD "")]] else []) ++
     (if ! it.meta.isEmpty then [el "Meta" (it.meta.map (fun kv => txtEl kv.1 kv.2))] else []) ++
     (match it.data with
      | some d => [txtEl "Data" d]
      | none => []))

/-- `build_results`. -/
def build_results (c : Nat) (msg_ref cmd_ref : String) (items : List ItemBuilder) :
    XElem × Nat :=
  let (cid, c1) := next_cmd_id c
  (el "Results" (txtEl "CmdID" cid :: txtEl "MsgRef" msg_ref :: txtEl "CmdRef" cmd_ref ::
    items.map results_item_elem), c1)

/-- `_build_header`. -/
def build_header (session_id msg_id target : String) (source : Option String) : XElem :=
  el "SyncHdr"
    [txtEl "VerDTD" "1.2", txtEl "VerProto" "DM/1.2", txtEl "SessionID" session_id,
     txtEl "MsgID" msg_id, el "Target" [txtEl "LocURI" target],
     el "Source" [txtEl "LocURI" (pyOrOpt source SERVER_ID)]]

/-- `build_response`: reset the counter, emit statuses (numbered from
1), append the pre-built command elements unchanged, close with `Final`.
The root carries `xmlns="SYNCML:SYNCML1.2"`. -/
def build_response (session_id msg_id target : String) (source : Option String)
    (statuses : List StatusBuilder) (commands : List XElem) (is_final : Bool) : XElem :=
  let hdr := build_header session_id msg_id target source
  let statusElems := (statuses.foldl
    (fun (acc : List XElem × Nat) st =>
      let (e, c1) := build_status_elem acc.2 st
      (acc.1 ++ [e], c1))
    ([], 0)).1
  let bodyKids := statusElems ++ commands ++ (if is_final then [el "Final" []] else [])
  XElem.mk "SyncML" [("xmlns", "SYNCML:SYNCML1.2")] none none
    (XList.ofList [hdr, el "SyncBody" bodyKids])

/-! ## Dispatch loop (server.py process_dm_message and handlers).
The update catalog (`update_manager.packages.values()`) is passed as a
list in insertion order. -/

/-- Generic insertion-ordered dict update (Python dict assignment). -/
def assocSet {α : Type} (d : List (String × α)) (k : String) (v : α) :
    List (String × α) :=
  if d.any (fun kv => kv.1 = k) then d.map (fun kv => if kv.1 = k then (k, v) else kv)
  else d ++ [(k, v)]

/-- `UpdateManager.get_package_url`. -/
def get_package_url (pkg : UpdatePackage) : String :=
  SERVER_URL ++ "/packages/" ++ pkg.filename

/-- `handle_alert`: status 200 for the alert; on code 1201 transition to
`AUTHENTICATED` and emit the device-info `Get`.  `none` models the
`ValueError` of `int(cmd.data)` on non-numeric data. -/
def handle_alert (session : Session) (cmd : SyncMLCommand) (hdr_msg_id : String) (c : Nat) :
    Option (Session × StatusBuilder × List XElem × Nat) :=
  match (if pyTruthyOpt cmd.data then pyInt (cmd.data.getD "") else some 0) with
  | none => none
  | some alert_code =>
    let status : StatusBuilder :=
      { msg_ref := hdr_msg_id, cmd_ref := cmd.cmd_id, cmd := "Alert", data := STATUS_OK }
    if alert_code = ALERT_CLIENT_INITIATED then
      let session := { session with state := SessionState.authenticated }
      let (get_cmd, c1) := build_get c
        ["./DevInfo/DevId", "./DevInfo/Man", "./DevInfo/Mod", "./DevInfo/FwV",
         "./DevInfo/SwV", "./DevInfo/HwV", "./Software/Build"]
      some (session, status, [get_cmd], c1)
    else
      some (session, status, [], c)

/-- `handle_status`: record into `command_results` under
`f"{cmd.cmd_ref}_{target_ref}"` (an f-string renders a `None` cmd_ref as
`"None"`); no response status is emitted. -/
def handle_status (session : Session) (cmd : SyncMLCommand) : Option Session :=
  match (if pyTruthyOpt cmd.data then pyInt (cmd.data.getD "") else some 0) with
  | none => none
  | some status_code =>
    let target_ref := pyOrOpt cmd.target_ref ""
    let key := pyStrOfOpt cmd.cmd_ref ++ "_" ++ target_ref
    some { session with command_results :=
      (assocSet session.command_results key
        { cmd := cmd.cmd, status := status_code, target := target_ref }) }

/-- `handle_results`: feed each item's `(source, data)` to
`update_device_info`; `AUTHENTICATED` advances to `MANAGEMENT`. -/
def handle_results (session : Session) (cmd : SyncMLCommand) (hdr_msg_id : String) :
    Session × StatusBuilder :=
  let session := cmd.items.foldl
    (fun s it =>
      { s with device_info :=
          update_device_info s.device_info (pyOrOpt it.source "") (pyOrOpt it.data "") })
    session
  let session :=
    if session.state = SessionState.authenticated then
      { session with state := SessionState.management }
    else session
  (session,
   { msg_ref := hdr_msg_id, cmd_ref := cmd.cmd_id, cmd := "Results", data := STATUS_OK })

/-- `handle_replace`: acknowledge only. -/
def handle_replace (cmd : SyncMLCommand) (hdr_msg_id : String) : StatusBuilder :=
  { msg_ref := hdr_msg_id, cmd_ref := cmd.cmd_id, cmd := "Replace", data := STATUS_OK }

/-- `handle_get`: answer `Build` and `PkgURL` targets from session state
and the catalog; truthy values become `Results` items. -/
def handle_get (session : Session) (cmd : SyncMLCommand) (hdr_msg_id : String) (c : Nat)
    (catalog : List UpdatePackage) : StatusBuilder × Option XElem × Nat :=
  let results_items := cmd.items.foldl
    (fun acc it =>
      let target := pyOrOpt it.target ""
      let value : Option String :=
        if strContains target "Build" then
          some (pyOr session.device_info.current_build "Nova-3.0.5-64")
        else if strContains target "PkgURL" then
          match check_update_available session.device_info.current_build catalog with
          | some pkg => some (get_package_url pkg)
          | none => none
        else none
      match value with
      | some v =>
        if v ≠ "" then acc ++ [({ source := some target, data := some v } : ItemBuilder)]
        else acc
      | none => acc)
    []
  let status : StatusBuilder :=
    { msg_ref := hdr_msg_id, cmd_ref := cmd.cmd_id, cmd := "Get", data := STATUS_OK }
  if results_items.isEmpty then (status, none, c)
  else
    let (res, c1) := build_results c hdr_msg_id cmd.cmd_id results_items
    (status, some res, c1)

/-- `check_and_send_update`: when the device build is known and a
package applies, move to `UPDATE_AVAILABLE` and emit the package
`Replace` plus the `Exec` for `DownloadAndInstall`. -/
def check_and_send_update (session : Session) (c : Nat) (catalog : List UpdatePackage) :
    Session × List XElem × Nat :=
  let device_build := pyOr session.device_info.current_build
    session.device_info.software_version
  if device_build = "" then (session, [], c)
  else
    match check_update_available device_build catalog with
    | none => (session, [], c)
    | some pkg =>
      let session := { session with state := SessionState.update_available }
      let pkg_url := get_package_url pkg
      let replace_items : List ItemBuilder :=
        [{ target := some "./Software/Package/PkgName", data := some pkg.name },
         { target := some "./Software/Package/PkgVersion", data := some pkg.version },
         { target := some "./Software/Package/PkgURL", data := some pkg_url },
         { target := some "./Software/Package/PkgSize", data := some (toString pkg.size) },
         { target := some "./Software/Package/PkgDesc", data := some pkg.description }] ++
        (if pkg.install_notify_url ≠ "" then
          [{ target := some "./Software/Package/PkgInstallNotify",
             data := some pkg.install_notify_url }]
         else [])
      let (rep, c1) := build_replace c replace_items
      let (ex, c2) := build_exec c1 "./Software/Operations/DownloadAndInstall" none
      (session, [rep, ex], c2)

/-- The per-command loop of `process_dm_message`, threading the session,
the status list, the server-command list and the builder counter. -/
def process_commands (catalog : List UpdatePackage) (hdr_msg_id : String) :
    List SyncMLCommand → Session → List StatusBuilder → List XElem → Nat →
    Option (Session × List StatusBuilder × List XElem × Nat)
  | [], s, sts, cmds, c => some (s, sts, cmds, c)
  | cmd :: rest, s, sts, cmds, c =>
    if cmd.name = "Alert" then
      match handle_alert s cmd hdr_msg_id c with
      | none => none
      | some (s1, st, newCmds, c1) =>
        process_commands catalog hdr_msg_id rest s1 (sts ++ [st]) (cmds ++ newCmds) c1
    else if cmd.name = "Status" then
      match handle_status s cmd with
      | none => none
      | some s1 => process_commands catalog hdr_msg_id rest s1 sts cmds c
    else if cmd.name = "Results" then
      let (s1, st) := handle_results s cmd hdr_msg_id
      process_commands catalog hdr_msg_id rest s1 (sts ++ [st]) cmds c
    else if cmd.name = "Replace" then
      process_commands catalog hdr_msg_id rest s (sts ++ [handle_replace cmd hdr_msg_id]) cmds c
    else if cmd.name = "Get" then
      let (st, resOpt, c1) := handle_get s cmd hdr_msg_id c catalog
      process_commands catalog hdr_msg_id rest s (sts ++ [st])
        (cmds ++ (match resOpt with | some r => [r] | none => [])) c1
    else
      process_commands catalog hdr_msg_id rest s
        (sts ++ [{ msg_ref := hdr_msg_id, cmd_ref := cmd.cmd_id, cmd := cmd.name,
                   data := STATUS_OK }])
        cmds c

/-- The SyncHdr status (`CmdRef=0`, 212 when authenticated else 401). -/
def sync_hdr_status (session : Session) (msg : SyncMLMessage) : StatusBuilder :=
  { msg_ref := msg.header.msg_id, cmd_ref := "0", cmd := "SyncHdr",
    data := if session.authenticated then STATUS_AUTH_ACCEPTED
            else STATUS_CREDENTIALS_MISSING,
    target_ref := some msg.header.target, source_ref := some msg.header.source }

/-- `process_dm_message`: SyncHdr status first, then per-command
statuses/commands, then the update check when the state is
`authenticated` or `management`, then `build_response`.  Returns the
response element tree and the mutated session; `none` models the
`ValueError` exceptions of the handlers (surfaced as HTTP 500). -/
def process_dm_message (session : Session) (msg : SyncMLMessage)
    (catalog : List UpdatePackage) : Option (XElem × Session) :=
  match process_commands catalog msg.header.msg_id msg.commands (next_msg_id session).2
      [sync_hdr_status (next_msg_id session).2 msg] [] 0 with
  | none => none
  | some (s2, sts, cmds, c) =>
    let up :=
      if ["authenticated", "management"].contains (stateValue s2.state) then
        check_and_send_update s2 c catalog
      else (s2, [], c)
    some (build_response s2.session_id (next_msg_id session).1 msg.header.source
      (some SERVER_ID) sts (cmds ++ up.2.1) true, up.1)

/-- The CmdID texts of the SyncBody children (everything but `Final`),
in document order. -/
def cmd_ids_of (root : XElem) : List String :=
  match findChild root "SyncBody" with
  | none => []
  | some body =>
    (body.children.toList.filter (fun e => e.tag ≠ "Final")).map
      (fun e => get_text_d e "CmdID" "")

def c1_session : Session :=
  { session_id := "42", device_id := "DEV-A", authenticated := true }

def c1_message : SyncMLMessage :=
  { header := { session_id := "42", msg_id := "1", target := "SERVER-ID", source := "DEV-A" },
    commands := [{ name := "Alert", cmd_id := "1", data := some "1201" }],
    is_final := true }

/-- C1 fails on the code: for the client-init message the response's
CmdIDs are `["1", "2", "1"]` — the `Get` was numbered before
`build_response` reset the counter, so its CmdID collides with the
SyncHdr status instead of continuing after the statuses.  The claimed
strictly-ascending sequence would be `["1", "2", "3"]`. -/
theorem c1_cmd_id_duplication :
    (process_dm_message c1_session c1_message []).map (fun r => cmd_ids_of r.1) =
      some ["1", "2", "1"] ∧
    ¬ (["1", "2", "1"] : List String).Nodup ∧
    ["1", "2", "1"] ≠ ["1", "2", "3"] := by
  refine ⟨rfl, by decide, by decide⟩

/-! ## C5: the two serialization paths of a builder response -/

/-- `parse(encode_wbxml(msg))` (the first byte `0x03` selects the WBXML
branch of `SyncMLParser.parse`). -/
def parse_of_wbxml (tree : XElem) : Option SyncMLMessage :=
  (wbxml_decode (wbxml_encode tree)).map parse_syncml

/-- `parse(to_xml(msg))`: `ET.tostring` then `ET.fromstring`, i.e. the
default-namespace transformation, then `_parse_syncml`. -/
def parse_of_xml (tree : XElem) : SyncMLMessage :=
  parse_syncml (applyDefaultNamespace tree)

def c5_msg_tree : XElem :=
  build_response "42" "1" "DEV-A" (some "SERVER-ID") [] [] true

/-- C5 fails on the code: for the builder response with SessionID 42 the
WBXML path round-trips the content (`is_final = true`, session id
`"42"`), while the XML path namespaces every tag
(`{SYNCML:SYNCML1.2}SyncHdr`), so the parser finds neither `SyncHdr` nor
`SyncBody` and returns the empty default message. -/
theorem c5_xml_wbxml_mismatch :
    (parse_of_wbxml c5_msg_tree).map (fun m => m.is_final) = some true ∧
    (parse_of_xml c5_msg_tree).is_final = false ∧
    (parse_of_wbxml c5_msg_tree).map (fun m => m.header.session_id) = some "42" ∧
    (parse_of_xml c5_msg_tree).header.session_id = "" ∧
    parse_of_wbxml c5_msg_tree ≠ some (parse_of_xml c5_msg_tree) := by
  refine ⟨rfl, rfl, rfl, rfl, ?_⟩
  intro h
  have h1 : (some true : Option Bool) = some false := by
    calc (some true : Option Bool)
        = (parse_of_wbxml c5_msg_tree).map (fun m => m.is_final) := rfl
      _ = (some (parse_of_xml c5_msg_tree)).map (fun m => m.is_final) := by rw [h]
      _ = some false := rfl
  simp at h1

/-! ## C2: the authentication tolerance, together with response
production -/

lemma handle_alert_ne_none (s : Session) (cmd : SyncMLCommand) (m : String) (c : Nat)
    (h : (if pyTruthyOpt cmd.data then pyInt (cmd.data.getD "") else some 0).isSome = true) :
    handle_alert s cmd m c ≠ none := by
  unfold handle_alert
  obtain ⟨v, hv⟩ := Option.isSome_iff_exists.mp h
  rw [hv]
  split
  · simp_all
  · split <;> simp

lemma handle_status_ne_none (s : Session) (cmd : SyncMLCommand)
    (h : (if pyTruthyOpt cmd.data then pyInt (cmd.data.getD "") else some 0).isSome = true) :
    handle_status s cmd ≠ none := by
  unfold handle_status
  obtain ⟨v, hv⟩ := Option.isSome_iff_exists.mp h
  rw [hv]
  split
  · simp_all
  · simp

/-- The per-command loop only fails on a non-numeric `Alert`/`Status`
data payload (the `int()` calls); under that side condition it always
returns a result. -/
lemma process_commands_ne_none (catalog : List UpdatePackage) (m : String) :
    ∀ cmds s sts cm c,
      (∀ cmd ∈ cmds, (cmd.name = "Alert" ∨ cmd.name = "Status") →
        (if pyTruthyOpt cmd.data then pyInt (cmd.data.getD "") else some 0).isSome = true) →
      process_commands catalog m cmds s sts cm c ≠ none := by
  intro cmds
  induction cmds with
  | nil =>
    intro s sts cm c _
    rw [process_commands]
    simp
  | cons cmd rest ih =>
    intro s sts cm c hall
    have hrest : ∀ cmd ∈ rest, (cmd.name = "Alert" ∨ cmd.name = "Status") →
        (if pyTruthyOpt cmd.data then pyInt (cmd.data.getD "") else some 0).isSome = true :=
      fun cmd hm hp => hall cmd (by simp [hm]) hp
    rw [process_commands]
    by_cases h1 : cmd.name = "Alert"
    · rw [if_pos h1]
      have hne := handle_alert_ne_none s cmd m c (hall cmd (by simp) (Or.inl h1))
      cases hx : handle_alert s cmd m c with
      | none => exact absurd hx hne
      | some q =>
        obtain ⟨s1, st, nc, c1⟩ := q
        exact ih _ _ _ _ hrest
    · rw [if_neg h1]
      by_cases h2 : cmd.name = "Status"
      · rw [if_pos h2]
        have hne := handle_status_ne_none s cmd (hall cmd (by simp) (Or.inr h2))
        cases hx : handle_status s cmd with
        | none => exact absurd hx hne
        | some s1 => exact ih _ _ _ _ hrest
      · rw [if_neg h2]
        by_cases h3 : cmd.name = "Results"
        · rw [if_pos h3]
          exact ih _ _ _ _ hrest
        · rw [if_neg h3]
          by_cases h4 : cmd.name = "Replace"
          · rw [if_pos h4]
            exact ih _ _ _ _ hrest
          · rw [if_neg h4]
            by_cases h5 : cmd.name = "Get"
            · rw [if_pos h5]
              exact ih _ _ _ _ hrest
            · rw [if_neg h5]
              exact ih _ _ _ _ hrest

/-- C2: for every incoming message processed in an unauthenticated
session, the endpoint's authentication block marks the session
authenticated — in all three cases: matching MAC, mismatching MAC, and
no MAC header at all (the quantification over `hmac_header` and `body`
covers all three) — and the dispatcher then produces a full session
response for every parsed message whose `Alert`/`Status` data fields are
numeric (the only dispatch failure mode, and one independent of
authentication). -/
theorem c2_auth_always_accepts (session : Session) (hmac_header : String)
    (cred_data : Option String) (body : List Nat)
    (h : session.authenticated = false) :
    (authStep session hmac_header cred_data body).authenticated = true ∧
    (∀ (msg : SyncMLMessage) (catalog : List UpdatePackage),
      (∀ cmd ∈ msg.commands, (cmd.name = "Alert" ∨ cmd.name = "Status") →
        (if pyTruthyOpt cmd.data then pyInt (cmd.data.getD "") else some 0).isSome = true) →
      (process_dm_message (authStep session hmac_header cred_data body) msg catalog).isSome
        = true) := by
  refine ⟨authStep_authenticated session hmac_header cred_data body h, ?_⟩
  intro msg catalog hall
  unfold process_dm_message
  split
  · next heq => exact absurd heq (process_commands_ne_none _ _ _ _ _ _ _ hall)
  · rfl

def c2_message : SyncMLMessage :=
  { header := { session_id := "7", msg_id := "1", target := "SERVER-ID", source := "DEV-B" },
    commands := [{ name := "Alert", cmd_id := "1", data := some "1201" }],
    is_final := true }

/-- Witness for C2: a fresh session with a mismatching MAC header is
authenticated and the client-init message gets a response. -/
theorem c2_auth_always_accepts_witness :
    c2_session.authenticated = false ∧
    (authStep c2_session "algorithm=MD5, username=guest, mac=BOGUS" (some "cred")
        (strBytes "<SyncML/>")).authenticated = true ∧
    (process_dm_message
      (authStep c2_session "algorithm=MD5, username=guest, mac=BOGUS" (some "cred")
        (strBytes "<SyncML/>"))
      c2_message []).isSome = true :=
  ⟨rfl,
   (c2_auth_always_accepts c2_session "algorithm=MD5, username=guest, mac=BOGUS"
     (some "cred") (strBytes "<SyncML/>") rfl).1,
   (c2_auth_always_accepts c2_session "algorithm=MD5, username=guest, mac=BOGUS"
     (some "cred") (strBytes "<SyncML/>") rfl).2 c2_message [] (by decide)⟩

end WUS
